import Mathlib

/-! # MINIaudio2: volume mixing, fades, triggers, sequences and the registry

A shallow embedding of the playback-control core of the repository
(`Sound.cpp`, `Music.cpp`, `AudioEngine.cpp`, `SoundComponent.cpp`).

Conventions of the embedding:

* a C++ `float` is an exact rational (`ℚ`): comparisons, `std::min` and
  `std::max` are exact on floats, while the rounding of `+`, `*`, `/` and the
  special values (NaN, infinities) are not modelled; the one exception is the
  fade duration, modelled a second time as a float that may be NaN
  (`FloatNaN`, `MusicNaN`);
* a member function becomes a function from the object before the call to the
  object after it; the singleton `AudioEngine::Instance()` is passed
  explicitly;
* the miniaudio voice (`ma_sound`) is a record holding what the code reads and
  writes through the `ma_sound_*` calls; the result of `ma_sound_start`
  (success or failure) is an explicit argument of `Play`.
-/

namespace MiniAudio

/-! ## Backend voice -/

/-- Modelled from the spec: the backend voice `ma_sound` (declared in
`miniaudio.h`, which is not among the sources). It keeps the volume control,
the started flag, the playback cursor (PCM frame) and the looping flag that
the `ma_sound_*` setters and getters act on. -/
structure MaSound where
  volume : ℚ
  started : Bool
  cursor : ℕ
  looping : Bool
deriving DecidableEq

/-- State of a voice right after a successful `ma_sound_init_from_file`. -/
def MaSound.init : MaSound :=
  { volume := 1, started := false, cursor := 0, looping := false }

/-- Backend call `ma_sound_set_volume`. -/
def ma_sound_set_volume (s : MaSound) (v : ℚ) : MaSound := { s with volume := v }

/-- Backend call `ma_sound_get_volume`. -/
def ma_sound_get_volume (s : MaSound) : ℚ := s.volume

/-- Backend call `ma_sound_start` when it reports `MA_SUCCESS`. -/
def ma_sound_start (s : MaSound) : MaSound := { s with started := true }

/-- Backend call `ma_sound_stop`. -/
def ma_sound_stop (s : MaSound) : MaSound := { s with started := false }

/-- Backend call `ma_sound_seek_to_pcm_frame`. -/
def ma_sound_seek_to_pcm_frame (s : MaSound) (frame : ℕ) : MaSound :=
  { s with cursor := frame }

/-! ## Categories and the engine tables -/

/-- The enumeration `AudioCategory` of `AudioEngine.h`. -/
inductive AudioCategory where
  | SFX
  | MUSIC
  | VOICE
  | AMBIENT
deriving DecidableEq

/-- The expression `std::max(0.0f, std::min(v, 1.0f))` used by every volume
setter. -/
def clamp01 (v : ℚ) : ℚ := max 0 (min v 1)

/-- Modelled from the spec: the tag of a fade, `FadeState` of `Music.h` (the
header is not among the sources; the three tags are the ones `Music.cpp`
uses). -/
inductive FadeState where
  | None
  | FadingIn
  | FadingOut
deriving DecidableEq

/-- The data members of `Sound` that `Sound.cpp` reads and writes. -/
structure Sound where
  loaded : Bool
  volume : ℚ
  category : AudioCategory
  playing : Bool
  paused : Bool
  sound : MaSound
deriving DecidableEq

/-- The data members of `Music` that `Music.cpp` reads and writes. -/
structure Music where
  loaded : Bool
  volume : ℚ
  category : AudioCategory
  playing : Bool
  paused : Bool
  fadeState : FadeState
  fadeDuration : ℚ
  fadeTimer : ℚ
  fadeStartVolume : ℚ
  fadeTargetVolume : ℚ
  stopAfterFadeOut : Bool
  sound : MaSound
deriving DecidableEq

/-- The data members of `AudioEngine` used by the mixing policy: the two
category tables (`std::unordered_map`, a missing key is `none`) and the two
registration lists. -/
structure AudioEngine where
  masterVolume : ℚ
  categoryVolumes : AudioCategory → Option ℚ
  categoryMuted : AudioCategory → Option Bool
  activeSounds : List Sound
  activeMusic : List Music

/-- The constructor `AudioEngine::AudioEngine`: every category at volume 1 and
not muted, nothing registered. -/
def AudioEngine.init : AudioEngine :=
  { masterVolume := 1
    categoryVolumes := fun _ => some 1
    categoryMuted := fun _ => some false
    activeSounds := []
    activeMusic := [] }

/-- Method `AudioEngine::GetCategoryVolume`. -/
def AudioEngine.GetCategoryVolume (e : AudioEngine) (category : AudioCategory) : ℚ :=
  match e.categoryVolumes category with
  | some v => v
  | none => 1

/-- Method `AudioEngine::IsCategoryMuted`. -/
def AudioEngine.IsCategoryMuted (e : AudioEngine) (category : AudioCategory) : Bool :=
  match e.categoryMuted category with
  | some b => b
  | none => false

/-! ## Sound -/

/-- The constructor `Sound::Sound`; `loadOk` is the result of
`ma_sound_init_from_file`. -/
def Sound.new (loadOk : Bool) : Sound :=
  { loaded := loadOk, volume := 1, category := AudioCategory.SFX,
    playing := false, paused := false, sound := MaSound.init }

/-- Method `Sound::Play`; `startOk` is whether `ma_sound_start` reports success. -/
def Sound.Play (s : Sound) (startOk : Bool) : Sound × Bool :=
  if s.loaded = false then (s, false)
  else if startOk = true then
    ({ s with sound := ma_sound_start s.sound, playing := true, paused := false }, true)
  else (s, false)

/-- Method `Sound::Stop`. -/
def Sound.Stop (s : Sound) : Sound :=
  if s.loaded = false then s
  else
    { s with sound := ma_sound_seek_to_pcm_frame (ma_sound_stop s.sound) 0,
             playing := false, paused := false }

/-- Method `Sound::UpdateVolume`. -/
def Sound.UpdateVolume (s : Sound) (e : AudioEngine) : Sound :=
  if s.loaded = false then s
  else
    let effectiveVolume := s.volume * e.GetCategoryVolume s.category
    let effectiveVolume := if e.IsCategoryMuted s.category = true then 0 else effectiveVolume
    { s with sound := ma_sound_set_volume s.sound effectiveVolume }

/-- Method `Sound::SetVolume`. -/
def Sound.SetVolume (s : Sound) (e : AudioEngine) (vol : ℚ) : Sound :=
  Sound.UpdateVolume { s with volume := clamp01 vol } e

/-- Method `Sound::SetCategory`. -/
def Sound.SetCategory (s : Sound) (e : AudioEngine) (cat : AudioCategory) : Sound :=
  Sound.UpdateVolume { s with category := cat } e

/-! ## Music -/

/-- The constructor `Music::Music`; `loadOk` is the result of
`ma_sound_init_from_file`. -/
def Music.new (loadOk : Bool) : Music :=
  { loaded := loadOk, volume := 1, category := AudioCategory.MUSIC,
    playing := false, paused := false, fadeState := FadeState.None,
    fadeDuration := 0, fadeTimer := 0, fadeStartVolume := 0,
    fadeTargetVolume := 0, stopAfterFadeOut := false, sound := MaSound.init }

/-- Method `Music::Play`; `startOk` is whether `ma_sound_start` reports success. -/
def Music.Play (m : Music) (startOk : Bool) : Music × Bool :=
  if m.loaded = false then (m, false)
  else if startOk = true then
    ({ m with sound := ma_sound_start m.sound, playing := true, paused := false }, true)
  else (m, false)

/-- Method `Music::Stop`. -/
def Music.Stop (m : Music) : Music :=
  if m.loaded = false then m
  else
    { m with sound := ma_sound_seek_to_pcm_frame (ma_sound_stop m.sound) 0,
             playing := false, paused := false, fadeState := FadeState.None }

/-- Method `Music::Pause`. -/
def Music.Pause (m : Music) : Music :=
  if m.loaded = false ∨ m.playing = false ∨ m.paused = true then m
  else { m with sound := ma_sound_stop m.sound, paused := true }

/-- Method `Music::Resume`. -/
def Music.Resume (m : Music) : Music :=
  if m.loaded = false ∨ m.paused = false then m
  else { m with sound := ma_sound_start m.sound, paused := false }

/-- The value `effectiveVolume` computed by `Music::UpdateVolume` (lines
238-246): base volume times category volume, or 0 when the category is
muted. -/
def Music.effectiveVolume (m : Music) (e : AudioEngine) : ℚ :=
  if e.IsCategoryMuted m.category = true then 0
  else m.volume * e.GetCategoryVolume m.category

/-- Method `Music::UpdateVolume`. -/
def Music.UpdateVolume (m : Music) (e : AudioEngine) : Music :=
  if m.loaded = false then m
  else
    let effectiveVolume := m.volume * e.GetCategoryVolume m.category
    let effectiveVolume := if e.IsCategoryMuted m.category = true then 0 else effectiveVolume
    if m.fadeState ≠ FadeState.None then { m with fadeTargetVolume := effectiveVolume }
    else { m with sound := ma_sound_set_volume m.sound effectiveVolume }

/-- Method `Music::SetVolume`. -/
def Music.SetVolume (m : Music) (e : AudioEngine) (vol : ℚ) : Music :=
  Music.UpdateVolume { m with volume := clamp01 vol } e

/-- Method `Music::SetCategory`. -/
def Music.SetCategory (m : Music) (e : AudioEngine) (cat : AudioCategory) : Music :=
  Music.UpdateVolume { m with category := cat } e

/-- Method `Music::SetPlaybackPosition`; `duration` is what `GetDuration` reads from
the backend and `sampleRate` what `ma_engine_get_sample_rate` returns. The
cast to `ma_uint64` truncates the non-negative product. -/
def Music.SetPlaybackPosition (m : Music) (duration : ℚ) (sampleRate : ℕ)
    (positionInSeconds : ℚ) : Music :=
  if m.loaded = false then m
  else
    let p := if positionInSeconds < 0 then 0 else positionInSeconds
    let p := if p > duration then duration else p
    { m with sound := ma_sound_seek_to_pcm_frame m.sound (Int.toNat ⌊p * sampleRate⌋) }

/-- Method `Music::FadeIn`; `startOk` is the result of the `ma_sound_start` inside
`Play`. -/
def Music.FadeIn (m : Music) (durationInSeconds : ℚ) (startOk : Bool) : Music :=
  if m.loaded = false ∨ durationInSeconds ≤ 0 then (m.Play startOk).1
  else
    let m1 : Music :=
      { m with fadeState := FadeState.FadingIn, fadeDuration := durationInSeconds,
               fadeTimer := 0, fadeStartVolume := 0, fadeTargetVolume := m.volume }
    let m2 : Music := { m1 with sound := ma_sound_set_volume m1.sound 0 }
    (m2.Play startOk).1

/-- Method `Music::FadeOut`. -/
def Music.FadeOut (m : Music) (durationInSeconds : ℚ) (stopAfterFade : Bool) : Music :=
  if m.loaded = false ∨ m.playing = false ∨ durationInSeconds ≤ 0 then
    if stopAfterFade = true then m.Stop else m
  else
    { m with fadeState := FadeState.FadingOut, fadeDuration := durationInSeconds,
             fadeTimer := 0, fadeStartVolume := ma_sound_get_volume m.sound,
             fadeTargetVolume := 0, stopAfterFadeOut := stopAfterFade }

/-- Method `Music::Update`. The quotient `fadeTimer / fadeDuration` is the rational
one (a zero duration gives 0 here, where the float division gives an infinity
or NaN; no statement below relies on that case). Both branches of the inner
`if` on the fade direction compute the same expression, as in the source. -/
def Music.Update (m : Music) (deltaTime : ℚ) : Music :=
  if m.loaded = false ∨ m.fadeState = FadeState.None then m
  else
    let m1 : Music := { m with fadeTimer := m.fadeTimer + deltaTime }
    let fadeProgress := m1.fadeTimer / m1.fadeDuration
    if fadeProgress ≥ 1 then
      if m1.fadeState = FadeState.FadingOut ∧ m1.stopAfterFadeOut = true then m1.Stop
      else
        { m1 with sound := ma_sound_set_volume m1.sound m1.fadeTargetVolume,
                  fadeState := FadeState.None }
    else
      let currentVolume :=
        if m1.fadeState = FadeState.FadingIn then
          m1.fadeStartVolume + (m1.fadeTargetVolume - m1.fadeStartVolume) * fadeProgress
        else
          m1.fadeStartVolume + (m1.fadeTargetVolume - m1.fadeStartVolume) * fadeProgress
      { m1 with sound := ma_sound_set_volume m1.sound currentVolume }

/-- A run of successive `Music::Update` calls, one per element of `dts`. -/
def Music.runUpdates (m : Music) (dts : List ℚ) : Music :=
  dts.foldl Music.Update m

/-- The backend volume observed after each call of a run of `Music::Update`
calls. -/
def Music.volumeTrace : Music → List ℚ → List ℚ
  | _, [] => []
  | m, dt :: dts => (m.Update dt).sound.volume :: Music.volumeTrace (m.Update dt) dts

/-! ## Engine broadcasts -/

/-- Method `AudioEngine::SetCategoryVolume`: store the clamped volume, then call
`UpdateVolume` on every registered voice of that category. -/
def AudioEngine.SetCategoryVolume (e : AudioEngine) (category : AudioCategory)
    (volume : ℚ) : AudioEngine :=
  let e1 : AudioEngine :=
    { e with categoryVolumes :=
        fun c => if c = category then some (clamp01 volume) else e.categoryVolumes c }
  let e2 : AudioEngine :=
    { e1 with activeSounds :=
        e1.activeSounds.map (fun s => if s.category = category then s.UpdateVolume e1 else s) }
  { e2 with activeMusic :=
      e2.activeMusic.map (fun m => if m.category = category then m.UpdateVolume e1 else m) }

/-- Method `AudioEngine::MuteCategory`: store the flag, then call `UpdateVolume` on
every registered voice of that category. -/
def AudioEngine.MuteCategory (e : AudioEngine) (category : AudioCategory)
    (mute : Bool) : AudioEngine :=
  let e1 : AudioEngine :=
    { e with categoryMuted :=
        fun c => if c = category then some mute else e.categoryMuted c }
  let e2 : AudioEngine :=
    { e1 with activeSounds :=
        e1.activeSounds.map (fun s => if s.category = category then s.UpdateVolume e1 else s) }
  { e2 with activeMusic :=
      e2.activeMusic.map (fun m => if m.category = category then m.UpdateVolume e1 else m) }

/-- Method `AudioEngine::RegisterSound` (the pointer is never null at the call in the
constructor of `Sound`). -/
def AudioEngine.RegisterSound (e : AudioEngine) (s : Sound) : AudioEngine :=
  { e with activeSounds := e.activeSounds ++ [s] }

/-- Method `AudioEngine::RegisterMusic`. -/
def AudioEngine.RegisterMusic (e : AudioEngine) (m : Music) : AudioEngine :=
  { e with activeMusic := e.activeMusic ++ [m] }

/-! ## SoundComponent: triggers and sequences -/

/-- A call the component issues on a named sound of the static `sounds` map:
`PlaySound(name, loop)` or `StopSound(name)`. The voices behind the names are
driven by these calls; the component state below keeps the names only. -/
inductive AudioCmd where
  | PlaySound (name : String) (loop : Bool)
  | StopSound (name : String)
deriving DecidableEq

/-- Modelled from the spec: the enumeration `SoundTriggerType` of
`SoundComponent.h` (the header is not among the sources; the three kinds are
the ones `SoundComponent.cpp` uses). -/
inductive SoundTriggerType where
  | ON_EVENT
  | ON_TIMER
  | ON_DISTANCE
deriving DecidableEq

/-- Modelled from the spec: the record `SoundTrigger` of `SoundComponent.h`,
with the five fields `AddSoundTrigger` fills in. -/
structure SoundTrigger where
  type : SoundTriggerType
  parameter : ℚ
  eventName : String
  accumulator : ℚ
  active : Bool
deriving DecidableEq

/-- Modelled from the spec: the record `SoundSequenceItem` of
`SoundComponent.h`. -/
structure SoundSequenceItem where
  soundName : String
  delay : ℚ
deriving DecidableEq

/-- The data members of `SoundComponent` used by triggers and sequences. The
maps (`std::unordered_map`) are association lists with distinct keys, visited
in list order. -/
structure SoundComponent where
  sounds : List String
  music : List (String × Music)
  soundTriggers : List (String × SoundTrigger)
  sequenceItems : List SoundSequenceItem
  currentSequenceIndex : ℕ
  sequenceTimer : ℚ
  playingSequence : Bool

/-- The constructor `SoundComponent::SoundComponent`, over the given contents
of the two static maps. -/
def SoundComponent.new (sounds : List String) (music : List (String × Music)) :
    SoundComponent :=
  { sounds := sounds, music := music, soundTriggers := [], sequenceItems := [],
    currentSequenceIndex := 0, sequenceTimer := 0, playingSequence := false }

/-- The assignment `map[key] = value` on an association list: replace the
entry of the key or add one. -/
def mapAssign {α : Type} (key : String) (value : α) :
    List (String × α) → List (String × α)
  | [] => [(key, value)]
  | (k, v) :: rest =>
    if k = key then (key, value) :: rest else (k, v) :: mapAssign key value rest

/-- The trigger `AddSoundTrigger` builds (lines 212-217). -/
def SoundTrigger.fresh (triggerType : SoundTriggerType) (parameter : ℚ)
    (eventName : String) : SoundTrigger :=
  { type := triggerType, parameter := parameter, eventName := eventName,
    accumulator := 0, active := true }

/-- Method `SoundComponent::AddSoundTrigger`. -/
def SoundComponent.AddSoundTrigger (c : SoundComponent) (soundName : String)
    (triggerType : SoundTriggerType) (parameter : ℚ) (eventName : String) :
    SoundComponent :=
  if soundName ∉ c.sounds then c
  else
    let trigger := SoundTrigger.fresh triggerType parameter eventName
    { c with soundTriggers := mapAssign soundName trigger c.soundTriggers }

/-- The body of the trigger loop of `SoundComponent::Update` (lines 249-278)
for one entry of `soundTriggers`: the trigger after the update and the
`PlaySound` calls made for it. -/
def updateTrigger (deltaTime distanceToListener : ℚ) (soundName : String)
    (trigger : SoundTrigger) : SoundTrigger × List AudioCmd :=
  match trigger.type with
  | SoundTriggerType.ON_TIMER =>
    let t1 : SoundTrigger := { trigger with accumulator := trigger.accumulator + deltaTime }
    if t1.accumulator ≥ t1.parameter then
      ({ t1 with accumulator := 0 }, [AudioCmd.PlaySound soundName false])
    else (t1, [])
  | SoundTriggerType.ON_DISTANCE =>
    if distanceToListener ≥ 0 ∧ trigger.active = true then
      if distanceToListener ≤ trigger.parameter then
        ({ trigger with active := false }, [AudioCmd.PlaySound soundName false])
      else (trigger, [])
    else if distanceToListener > trigger.parameter * (3 / 2) then
      ({ trigger with active := true }, [])
    else (trigger, [])
  | SoundTriggerType.ON_EVENT => (trigger, [])

/-- The trigger loop of `SoundComponent::Update` over the whole map. -/
def updateTriggers (deltaTime distanceToListener : ℚ) :
    List (String × SoundTrigger) → List (String × SoundTrigger) × List AudioCmd
  | [] => ([], [])
  | (name, t) :: rest =>
    let r := updateTrigger deltaTime distanceToListener name t
    let rs := updateTriggers deltaTime distanceToListener rest
    ((name, r.1) :: rs.1, r.2 ++ rs.2)

/-- Method `SoundComponent::Update`: the component after the call and the calls it
issued, in order. The result is `none` when `sequenceItems[currentSequenceIndex]`
is read out of bounds (undefined behaviour in the source). -/
def SoundComponent.Update (c : SoundComponent) (deltaTime distanceToListener : ℚ) :
    Option (SoundComponent × List AudioCmd) :=
  let c1 : SoundComponent :=
    { c with music := c.music.map (fun p => (p.1, p.2.Update deltaTime)) }
  let r := updateTriggers deltaTime distanceToListener c1.soundTriggers
  let c2 : SoundComponent := { c1 with soundTriggers := r.1 }
  if c2.playingSequence = true ∧ c2.sequenceItems ≠ [] then
    let c3 : SoundComponent := { c2 with sequenceTimer := c2.sequenceTimer + deltaTime }
    match c3.sequenceItems[c3.currentSequenceIndex]? with
    | none => none
    | some item =>
      if c3.sequenceTimer ≥ item.delay then
        let c4 : SoundComponent :=
          { c3 with currentSequenceIndex := c3.currentSequenceIndex + 1, sequenceTimer := 0 }
        let c5 : SoundComponent :=
          if c4.currentSequenceIndex ≥ c4.sequenceItems.length then
            { c4 with playingSequence := false }
          else c4
        some (c5, r.2 ++ [AudioCmd.PlaySound item.soundName false])
      else some (c3, r.2)
  else some (c2, r.2)

/-- One trigger driven through successive updates: `inputs` lists the
`(deltaTime, distanceToListener)` of each `SoundComponent::Update` call. -/
def runTrigger (soundName : String) (trigger : SoundTrigger) (inputs : List (ℚ × ℚ)) :
    SoundTrigger :=
  inputs.foldl (fun t x => (updateTrigger x.1 x.2 soundName t).1) trigger

/-- Whether the trigger fires (calls `PlaySound`) on the update with input
`x = (deltaTime, distanceToListener)`. -/
def fires (soundName : String) (trigger : SoundTrigger) (x : ℚ × ℚ) : Bool :=
  !(updateTrigger x.1 x.2 soundName trigger).2.isEmpty

/-- For each update of a run, whether the trigger fired on it. -/
def firingTrace (soundName : String) : SoundTrigger → List (ℚ × ℚ) → List Bool
  | _, [] => []
  | t, x :: xs =>
    fires soundName t x :: firingTrace soundName (updateTrigger x.1 x.2 soundName t).1 xs

/-- The same voice with other fade bookkeeping: the six fade fields replaced,
everything else (flags, base volume, category, backend voice) kept. -/
def Music.withFade (m : Music) (f : FadeState) (duration timer start target : ℚ)
    (stop : Bool) : Music :=
  { m with fadeState := f, fadeDuration := duration, fadeTimer := timer,
           fadeStartVolume := start, fadeTargetVolume := target, stopAfterFadeOut := stop }

/-! ## Definitions for the timer, sequence and registry statements -/

/-- Method `Sound::Pause`. -/
def Sound.Pause (s : Sound) : Sound :=
  if s.loaded = false ∨ s.playing = false ∨ s.paused = true then s
  else { s with sound := ma_sound_stop s.sound, paused := true }

/-- Method `Sound::Resume`. -/
def Sound.Resume (s : Sound) : Sound :=
  if s.loaded = false ∨ s.paused = false then s
  else { s with sound := ma_sound_start s.sound, paused := false }

/-- Method `Sound::IsPlaying`: the voice after the call (its `playing` flag is
cleared when the backend reports that it no longer plays) and the returned
value. The backend query `ma_sound_is_playing` reads the started flag, which
the backend clears when a voice that does not loop reaches its end. The
finished callback is not part of the state. -/
def Sound.IsPlaying (s : Sound) : Sound × Bool :=
  if s.loaded = false then (s, false)
  else if s.paused = true then (s, false)
  else
    let isPlaying := s.sound.started
    let s1 : Sound := if isPlaying = false ∧ s.playing = true then { s with playing := false } else s
    (s1, isPlaying)

/-- The value `effectiveVolume` computed by `Sound::UpdateVolume` (lines
212-220). -/
def Sound.effectiveVolume (s : Sound) (e : AudioEngine) : ℚ :=
  if e.IsCategoryMuted s.category = true then 0
  else s.volume * e.GetCategoryVolume s.category

/-- The loop of `AudioEngine::Update` (lines 331-339) over `activeSounds`:
an entry is erased when `IsPlaying()` returns false on it, and kept
otherwise. -/
def sweepSounds : List Sound → List Sound
  | [] => []
  | s :: rest =>
    if s.IsPlaying.2 = false then sweepSounds rest
    else s.IsPlaying.1 :: sweepSounds rest

/-- Method `AudioEngine::Update`. -/
def AudioEngine.Update (e : AudioEngine) (_deltaTime : ℚ) : AudioEngine :=
  { e with activeSounds := sweepSounds e.activeSounds }

/-- Method `SoundComponent::RemoveSoundTrigger`. -/
def SoundComponent.RemoveSoundTrigger (c : SoundComponent) (soundName : String)
    (triggerType : SoundTriggerType) : SoundComponent :=
  match c.soundTriggers.find? (fun en => en.1 = soundName) with
  | some en =>
    if en.2.type = triggerType then
      { c with soundTriggers := c.soundTriggers.filter (fun x => x.1 ≠ soundName) }
    else c
  | none => c

/-- Method `SoundComponent::TriggerEvent`: the `PlaySound` calls it makes, in
the order of the map; the triggers themselves are not modified. -/
def SoundComponent.TriggerEvent (c : SoundComponent) (eventName : String) : List AudioCmd :=
  (c.soundTriggers.map (fun en =>
    if en.2.type = SoundTriggerType.ON_EVENT ∧ en.2.eventName = eventName ∧
        en.2.active = true then
      [AudioCmd.PlaySound en.1 false]
    else [])).flatten

/-- Method `SoundComponent::StopSoundSequence`: the component after the call
and the `StopSound` call it makes, if any. -/
def SoundComponent.StopSoundSequence (c : SoundComponent) :
    SoundComponent × List AudioCmd :=
  let cmds : List AudioCmd :=
    if h : c.playingSequence = true ∧ c.currentSequenceIndex < c.sequenceItems.length then
      [AudioCmd.StopSound (c.sequenceItems.get ⟨c.currentSequenceIndex, h.2⟩).soundName]
    else []
  ({ c with playingSequence := false, sequenceItems := [] }, cmds)

/-- Method `SoundComponent::PlaySoundSequence`: the component after the call
and the calls it made. The function is declared `void`: nothing is returned
to the caller on either path. -/
def SoundComponent.PlaySoundSequence (c : SoundComponent) (soundNames : List String)
    (delays : List ℚ) : SoundComponent × List AudioCmd :=
  if soundNames = [] ∨ soundNames.length ≠ delays.length then (c, [])
  else
    let r := c.StopSoundSequence
    let items : List SoundSequenceItem :=
      List.zipWith (fun n d => { soundName := n, delay := d }) soundNames delays
    ({ r.1 with sequenceItems := items, currentSequenceIndex := 0, sequenceTimer := 0,
                playingSequence := true }, r.2)

/-- The value `SoundComponent::PlaySoundSequence` hands back to its caller.
The function is declared `void` (line 335), so the rejecting `return;` of line
338 and the normal end of the function hand back the same unit value. -/
def SoundComponent.PlaySoundSequence_result (_c : SoundComponent)
    (_soundNames : List String) (_delays : List ℚ) : Unit := ()

/-- Successive `SoundComponent::Update` calls, `n` of them, all with the same
arguments: the component at the end and, for each call, the calls it issued.
The result is `none` as soon as one call reads out of bounds. -/
def SoundComponent.runUpdates (deltaTime distanceToListener : ℚ) :
    ℕ → SoundComponent → Option (SoundComponent × List (List AudioCmd))
  | 0, c => some (c, [])
  | n + 1, c =>
    match c.Update deltaTime distanceToListener with
    | none => none
    | some r =>
      match SoundComponent.runUpdates deltaTime distanceToListener n r.1 with
      | none => none
      | some rs => some (rs.1, r.2 :: rs.2)

/-- What the trigger loop alone issues on each of `n` successive updates with
the same arguments, starting from the given trigger map. -/
def triggerLog (deltaTime distanceToListener : ℚ) :
    ℕ → List (String × SoundTrigger) → List (List AudioCmd)
  | 0, _ => []
  | n + 1, l =>
    (updateTriggers deltaTime distanceToListener l).2 ::
      triggerLog deltaTime distanceToListener n (updateTriggers deltaTime distanceToListener l).1

/-- The states of a `SoundComponent` reachable from its constructor through
`PlaySoundSequence`, `StopSoundSequence` and `Update`, with any arguments. -/
inductive SoundComponent.Reachable : SoundComponent → Prop where
  | new (sounds : List String) (music : List (String × Music)) :
    SoundComponent.Reachable (SoundComponent.new sounds music)
  | PlaySoundSequence (c : SoundComponent) (soundNames : List String) (delays : List ℚ) :
    SoundComponent.Reachable c →
    SoundComponent.Reachable (c.PlaySoundSequence soundNames delays).1
  | StopSoundSequence (c : SoundComponent) :
    SoundComponent.Reachable c → SoundComponent.Reachable c.StopSoundSequence.1
  | Update (c : SoundComponent) (dt dist : ℚ) (r : SoundComponent × List AudioCmd) :
    SoundComponent.Reachable c → c.Update dt dist = some r → SoundComponent.Reachable r.1

/-! ## Definitions for the trigger loop inside `Update` -/

/-- The lookup `map.find(key)` on an association list: the value stored under
the key, if any. -/
def mapFind {α : Type} (key : String) : List (String × α) → Option α
  | [] => none
  | (k, v) :: rest => if k = key then some v else mapFind key rest

/-- Successive `SoundComponent::Update` calls, one per element of `inputs`,
each element giving the `(deltaTime, distanceToListener)` of its call: the
component at the end and, for each call, the calls it issued. The result is
`none` as soon as one call reads out of bounds. -/
def SoundComponent.runInputs :
    List (ℚ × ℚ) → SoundComponent → Option (SoundComponent × List (List AudioCmd))
  | [], c => some (c, [])
  | x :: xs, c =>
    match c.Update x.1 x.2 with
    | none => none
    | some r =>
      match SoundComponent.runInputs xs r.1 with
      | none => none
      | some rs => some (rs.1, r.2 :: rs.2)

/-! ## The fade duration as a float that may be NaN -/

/-- A C++ `float` with its NaN value kept: NaN, or a number (taken as an exact
rational, as everywhere else; the infinities are left out). Only comparisons
are needed on it. -/
inductive FloatNaN where
  | nan
  | val (q : ℚ)
deriving DecidableEq

/-- The float comparison `a <= b`: false as soon as one side is NaN. -/
def FloatNaN.le : FloatNaN → FloatNaN → Bool
  | FloatNaN.val a, FloatNaN.val b => decide (a ≤ b)
  | _, _ => false

/-- The float comparison `a > b`: false as soon as one side is NaN. -/
def FloatNaN.gt : FloatNaN → FloatNaN → Bool
  | FloatNaN.val a, FloatNaN.val b => decide (a > b)
  | _, _ => false

/-- The data members of `Music` that `Play`, `Stop`, `FadeIn` and `FadeOut`
read and write, with the member `fadeDuration` kept as a float that may be
NaN. -/
structure MusicNaN where
  loaded : Bool
  volume : ℚ
  playing : Bool
  paused : Bool
  fadeState : FadeState
  fadeDuration : FloatNaN
  fadeTimer : ℚ
  fadeStartVolume : ℚ
  fadeTargetVolume : ℚ
  stopAfterFadeOut : Bool
  sound : MaSound
deriving DecidableEq

/-- The constructor `Music::Music`, with `fadeDuration(0.0f)`. -/
def MusicNaN.new (loadOk : Bool) : MusicNaN :=
  { loaded := loadOk, volume := 1, playing := false, paused := false,
    fadeState := FadeState.None, fadeDuration := FloatNaN.val 0, fadeTimer := 0,
    fadeStartVolume := 0, fadeTargetVolume := 0, stopAfterFadeOut := false,
    sound := MaSound.init }

/-- Method `Music::Play`; `startOk` is whether `ma_sound_start` reports success. -/
def MusicNaN.Play (m : MusicNaN) (startOk : Bool) : MusicNaN × Bool :=
  if m.loaded = false then (m, false)
  else if startOk = true then
    ({ m with sound := ma_sound_start m.sound, playing := true, paused := false }, true)
  else (m, false)

/-- Method `Music::Stop`. -/
def MusicNaN.Stop (m : MusicNaN) : MusicNaN :=
  if m.loaded = false then m
  else
    { m with sound := ma_sound_seek_to_pcm_frame (ma_sound_stop m.sound) 0,
             playing := false, paused := false, fadeState := FadeState.None }

/-- Method `Music::FadeIn`, the duration being any float: the guard is the
float comparison `durationInSeconds <= 0.0f` of line 125. -/
def MusicNaN.FadeIn (m : MusicNaN) (durationInSeconds : FloatNaN) (startOk : Bool) :
    MusicNaN :=
  if m.loaded = false ∨ FloatNaN.le durationInSeconds (FloatNaN.val 0) = true then
    (m.Play startOk).1
  else
    let m1 : MusicNaN :=
      { m with fadeState := FadeState.FadingIn, fadeDuration := durationInSeconds,
               fadeTimer := 0, fadeStartVolume := 0, fadeTargetVolume := m.volume }
    let m2 : MusicNaN := { m1 with sound := ma_sound_set_volume m1.sound 0 }
    (m2.Play startOk).1

/-- Method `Music::FadeOut`, the duration being any float: the guard is the
float comparison `durationInSeconds <= 0.0f` of line 147. -/
def MusicNaN.FadeOut (m : MusicNaN) (durationInSeconds : FloatNaN) (stopAfterFade : Bool) :
    MusicNaN :=
  if m.loaded = false ∨ m.playing = false ∨
      FloatNaN.le durationInSeconds (FloatNaN.val 0) = true then
    if stopAfterFade = true then m.Stop else m
  else
    { m with fadeState := FadeState.FadingOut, fadeDuration := durationInSeconds,
             fadeTimer := 0, fadeStartVolume := ma_sound_get_volume m.sound,
             fadeTargetVolume := 0, stopAfterFadeOut := stopAfterFade }

/-! ## Volume mixer -/

theorem clamp01_nonneg (v : ℚ) : 0 ≤ clamp01 v := le_max_left _ _

theorem clamp01_le_one (v : ℚ) : clamp01 v ≤ 1 :=
  max_le zero_le_one (min_le_right _ _)

theorem clamp01_of_mem (v : ℚ) (h0 : 0 ≤ v) (h1 : v ≤ 1) : clamp01 v = v := by
  unfold clamp01
  rw [min_eq_left h1, max_eq_right h0]

theorem GetCategoryVolume_SetCategoryVolume (e : AudioEngine) (c : AudioCategory) (cv : ℚ) :
    (e.SetCategoryVolume c cv).GetCategoryVolume c = clamp01 cv := by
  simp [AudioEngine.SetCategoryVolume, AudioEngine.GetCategoryVolume]

theorem IsCategoryMuted_SetCategoryVolume (e : AudioEngine) (c c' : AudioCategory) (cv : ℚ) :
    (e.SetCategoryVolume c cv).IsCategoryMuted c' = e.IsCategoryMuted c' := by
  simp [AudioEngine.SetCategoryVolume, AudioEngine.IsCategoryMuted]

theorem Sound.UpdateVolume_sound_volume (s : Sound) (e : AudioEngine) (h : s.loaded = true) :
    (s.UpdateVolume e).sound.volume =
      if e.IsCategoryMuted s.category = true then 0
      else s.volume * e.GetCategoryVolume s.category := by
  simp [Sound.UpdateVolume, h, ma_sound_set_volume]

theorem Music.UpdateVolume_music_volume (m : Music) (e : AudioEngine) (h : m.loaded = true)
    (hf : m.fadeState = FadeState.None) :
    (m.UpdateVolume e).sound.volume = m.effectiveVolume e := by
  simp [Music.UpdateVolume, Music.effectiveVolume, h, hf, ma_sound_set_volume]

theorem Sound.SetVolume_sound_fields (s : Sound) (e : AudioEngine) (v : ℚ) :
    (s.SetVolume e v).loaded = s.loaded ∧ (s.SetVolume e v).category = s.category ∧
      (s.SetVolume e v).volume = clamp01 v := by
  unfold Sound.SetVolume Sound.UpdateVolume
  split <;> simp_all

theorem Music.SetVolume_music_fields (m : Music) (e : AudioEngine) (v : ℚ) :
    (m.SetVolume e v).loaded = m.loaded ∧ (m.SetVolume e v).category = m.category ∧
      (m.SetVolume e v).volume = clamp01 v ∧ (m.SetVolume e v).fadeState = m.fadeState := by
  by_cases hl : m.loaded = true <;> by_cases hf : m.fadeState = FadeState.None <;>
    simp [Music.SetVolume, Music.UpdateVolume, hl, hf]

/-- C1: for a loaded `Sound`, and for a loaded `Music` with no active fade,
after `SetVolume(v)` on the voice and `SetCategoryVolume(category, cv)` on the
engine (any floats `v`, `cv`, either mute state), `UpdateVolume` writes to the
backend 0 when the category is muted and `clamp01 v * clamp01 cv` otherwise;
when `v` and `cv` already lie in `[0,1]` this is `muted ? 0 : v * cv`. -/
theorem C1_effective_volume_written (e : AudioEngine) (s : Sound) (m : Music) (v cv : ℚ)
    (hs : s.loaded = true) (hm : m.loaded = true) (hf : m.fadeState = FadeState.None) :
    ((s.SetVolume e v).UpdateVolume (e.SetCategoryVolume s.category cv)).sound.volume
        = (if e.IsCategoryMuted s.category = true then 0 else clamp01 v * clamp01 cv)
    ∧ ((m.SetVolume e v).UpdateVolume (e.SetCategoryVolume m.category cv)).sound.volume
        = (if e.IsCategoryMuted m.category = true then 0 else clamp01 v * clamp01 cv)
    ∧ (0 ≤ v → v ≤ 1 → 0 ≤ cv → cv ≤ 1 →
        ((s.SetVolume e v).UpdateVolume (e.SetCategoryVolume s.category cv)).sound.volume
            = (if e.IsCategoryMuted s.category = true then 0 else v * cv)
        ∧ ((m.SetVolume e v).UpdateVolume (e.SetCategoryVolume m.category cv)).sound.volume
            = (if e.IsCategoryMuted m.category = true then 0 else v * cv)) := by
  obtain ⟨sl, sc, sv⟩ := Sound.SetVolume_sound_fields s e v
  obtain ⟨ml, mc, mv, mf⟩ := Music.SetVolume_music_fields m e v
  have h1 : ((s.SetVolume e v).UpdateVolume (e.SetCategoryVolume s.category cv)).sound.volume
      = (if e.IsCategoryMuted s.category = true then 0 else clamp01 v * clamp01 cv) := by
    rw [Sound.UpdateVolume_sound_volume _ _ (by rw [sl, hs]), sc, sv,
      GetCategoryVolume_SetCategoryVolume, IsCategoryMuted_SetCategoryVolume]
  have h2 : ((m.SetVolume e v).UpdateVolume (e.SetCategoryVolume m.category cv)).sound.volume
      = (if e.IsCategoryMuted m.category = true then 0 else clamp01 v * clamp01 cv) := by
    rw [Music.UpdateVolume_music_volume _ _ (by rw [ml, hm]) (by rw [mf, hf]),
      Music.effectiveVolume, mc, mv,
      GetCategoryVolume_SetCategoryVolume, IsCategoryMuted_SetCategoryVolume]
  refine ⟨h1, h2, ?_⟩
  intro v0 v1 c0 c1
  rw [h1, h2, clamp01_of_mem v v0 v1, clamp01_of_mem cv c0 c1]
  exact ⟨rfl, rfl⟩

/-- Witness of C1: a fresh loaded sound and a fresh loaded music track, base
volume 3/2 (clamped to 1) and category volume 1/2. -/
theorem C1_effective_volume_written_witness :
    (((Sound.new true).SetVolume AudioEngine.init (3 / 2)).UpdateVolume
        (AudioEngine.init.SetCategoryVolume (Sound.new true).category (1 / 2))).sound.volume
      = (if AudioEngine.init.IsCategoryMuted (Sound.new true).category = true then 0
          else clamp01 (3 / 2) * clamp01 (1 / 2)) :=
  (C1_effective_volume_written AudioEngine.init (Sound.new true) (Music.new true)
    (3 / 2) (1 / 2) rfl rfl rfl).1

/-! ## Fade engine -/

theorem Music.FadeIn_pos (m : Music) (d : ℚ) (ok : Bool) (hl : m.loaded = true)
    (hd : 0 < d) :
    m.FadeIn d ok =
      { m with
        fadeState := FadeState.FadingIn, fadeDuration := d, fadeTimer := 0,
        fadeStartVolume := 0, fadeTargetVolume := m.volume,
        sound := if ok = true then ma_sound_start (ma_sound_set_volume m.sound 0)
                 else ma_sound_set_volume m.sound 0,
        playing := if ok = true then true else m.playing,
        paused := if ok = true then false else m.paused } := by
  cases ok <;> simp [Music.FadeIn, Music.Play, hl, not_le.mpr hd]

theorem Music.FadeOut_pos (m : Music) (d : ℚ) (s : Bool) (hl : m.loaded = true)
    (hp : m.playing = true) (hd : 0 < d) :
    m.FadeOut d s =
      { m with
        fadeState := FadeState.FadingOut, fadeDuration := d, fadeTimer := 0,
        fadeStartVolume := m.sound.volume, fadeTargetVolume := 0,
        stopAfterFadeOut := s } := by
  simp [Music.FadeOut, hl, hp, not_le.mpr hd, ma_sound_get_volume]

/-- C2: evaluation of `Music::FadeIn` where the claim fails. A loaded track of
base volume 1 in category MUSIC, with the category volume set to 1/2 (or the
category muted), has effective volume 1/2 (or 0), yet `FadeIn(2)` stores the
base volume 1 in `fadeTargetVolume`, and the completed fade leaves the backend
at volume 1. -/
theorem C2_fadeIn_target_ignores_category :
    ((Music.new true).UpdateVolume
        (AudioEngine.init.SetCategoryVolume AudioCategory.MUSIC (1 / 2))).effectiveVolume
        (AudioEngine.init.SetCategoryVolume AudioCategory.MUSIC (1 / 2)) = 1 / 2
    ∧ (((Music.new true).UpdateVolume
        (AudioEngine.init.SetCategoryVolume AudioCategory.MUSIC (1 / 2))).FadeIn 2
          true).fadeTargetVolume = 1
    ∧ ((((Music.new true).UpdateVolume
        (AudioEngine.init.SetCategoryVolume AudioCategory.MUSIC (1 / 2))).FadeIn 2
          true).runUpdates [2]).sound.volume = 1
    ∧ ((Music.new true).UpdateVolume
        (AudioEngine.init.MuteCategory AudioCategory.MUSIC true)).effectiveVolume
        (AudioEngine.init.MuteCategory AudioCategory.MUSIC true) = 0
    ∧ (((Music.new true).UpdateVolume
        (AudioEngine.init.MuteCategory AudioCategory.MUSIC true)).FadeIn 2
          true).fadeTargetVolume = 1 := by
  have hne : FadeState.FadingIn ≠ FadeState.None := by decide
  refine ⟨?_, ?_, ?_, ?_, ?_⟩ <;>
    norm_num [hne, Music.new, Music.UpdateVolume, Music.effectiveVolume, Music.FadeIn, Music.Play,
      Music.runUpdates, Music.Update, AudioEngine.init, AudioEngine.SetCategoryVolume,
      AudioEngine.MuteCategory, AudioEngine.GetCategoryVolume, AudioEngine.IsCategoryMuted,
      clamp01, MaSound.init, ma_sound_set_volume, ma_sound_start]

theorem Music.Update_of_none (m : Music) (dt : ℚ) (h : m.fadeState = FadeState.None) :
    m.Update dt = m := by
  simp [Music.Update, h]

theorem Music.runUpdates_of_none (dts : List ℚ) (m : Music)
    (h : m.fadeState = FadeState.None) : m.runUpdates dts = m := by
  induction dts with
  | nil => rfl
  | cons dt rest ih =>
    simp only [Music.runUpdates, List.foldl_cons] at ih ⊢
    rw [Music.Update_of_none m dt h]
    exact ih

theorem Music.runUpdates_cons (m : Music) (dt : ℚ) (dts : List ℚ) :
    m.runUpdates (dt :: dts) = (m.Update dt).runUpdates dts := rfl

theorem Music.volumeTrace_chain_of_none (dts : List ℚ) (m : Music)
    (h : m.fadeState = FadeState.None) :
    List.Chain (fun a b : ℚ => a ≤ b) m.sound.volume (m.volumeTrace dts) := by
  induction dts with
  | nil => exact List.Chain.nil
  | cons dt rest ih =>
    simp only [Music.volumeTrace, Music.Update_of_none m dt h]
    exact List.Chain.cons (le_refl _) ih

theorem Music.Update_fading_lt (m : Music) (dt : ℚ) (hl : m.loaded = true)
    (hf : m.fadeState ≠ FadeState.None)
    (hlt : (m.fadeTimer + dt) / m.fadeDuration < 1) :
    m.Update dt =
      { m with
        fadeTimer := m.fadeTimer + dt,
        sound := ma_sound_set_volume m.sound
          (m.fadeStartVolume +
            (m.fadeTargetVolume - m.fadeStartVolume) * ((m.fadeTimer + dt) / m.fadeDuration)) } := by
  simp [Music.Update, hl, hf, not_le.mpr hlt]

theorem Music.Update_fadingIn_ge (m : Music) (dt : ℚ) (hl : m.loaded = true)
    (hf : m.fadeState = FadeState.FadingIn)
    (hge : 1 ≤ (m.fadeTimer + dt) / m.fadeDuration) :
    m.Update dt =
      { m with
        fadeTimer := m.fadeTimer + dt,
        sound := ma_sound_set_volume m.sound m.fadeTargetVolume,
        fadeState := FadeState.None } := by
  simp [Music.Update, hl, hf, hge]

theorem Music.Update_fadingOut_stop (m : Music) (dt : ℚ) (hl : m.loaded = true)
    (hf : m.fadeState = FadeState.FadingOut) (hs : m.stopAfterFadeOut = true)
    (hge : 1 ≤ (m.fadeTimer + dt) / m.fadeDuration) :
    m.Update dt = Music.Stop { m with fadeTimer := m.fadeTimer + dt } := by
  simp [Music.Update, hl, hf, hs, hge]

theorem Music.fadeIn_chain (dts : List ℚ) : ∀ m : Music, m.loaded = true →
    m.fadeState = FadeState.FadingIn → 0 < m.fadeDuration → m.fadeStartVolume = 0 →
    0 ≤ m.fadeTargetVolume → m.fadeTimer < m.fadeDuration →
    m.sound.volume = m.fadeTargetVolume * (m.fadeTimer / m.fadeDuration) →
    (∀ dt ∈ dts, 0 ≤ dt) →
    List.Chain (fun a b : ℚ => a ≤ b) m.sound.volume (m.volumeTrace dts) := by
  induction dts with
  | nil => intros; exact List.Chain.nil
  | cons dt rest ih =>
    intro m hl hf hd hs hT ht hv hdt
    have hdt0 : 0 ≤ dt := hdt dt (List.mem_cons_self _ _)
    have hne : m.fadeState ≠ FadeState.None := by rw [hf]; decide
    simp only [Music.volumeTrace]
    by_cases hlt : (m.fadeTimer + dt) / m.fadeDuration < 1
    · rw [Music.Update_fading_lt m dt hl hne hlt]
      refine List.Chain.cons ?_ ?_
      · simp only [ma_sound_set_volume, hs, hv]
        have : m.fadeTimer / m.fadeDuration ≤ (m.fadeTimer + dt) / m.fadeDuration :=
          div_le_div_of_nonneg_right (by linarith) hd.le
        nlinarith [mul_le_mul_of_nonneg_left this hT]
      · refine ih _ hl hf hd hs hT ((div_lt_one hd).mp hlt) ?_
          (fun x hx => hdt x (List.mem_cons_of_mem _ hx))
        simp only [ma_sound_set_volume, hs]
        ring
    · have hge : 1 ≤ (m.fadeTimer + dt) / m.fadeDuration := not_lt.mp hlt
      rw [Music.Update_fadingIn_ge m dt hl hf hge]
      refine List.Chain.cons ?_ (Music.volumeTrace_chain_of_none rest _ rfl)
      simp only [ma_sound_set_volume, hv]
      have h1 : m.fadeTimer / m.fadeDuration ≤ 1 := ((div_lt_one hd).mpr ht).le
      exact mul_le_of_le_one_right hT h1

theorem Music.fadeIn_reach (dts : List ℚ) : ∀ m : Music, m.loaded = true →
    m.fadeState = FadeState.FadingIn → 0 < m.fadeDuration →
    m.fadeTimer < m.fadeDuration → m.fadeDuration ≤ m.fadeTimer + dts.sum →
    (m.runUpdates dts).fadeState = FadeState.None ∧
      (m.runUpdates dts).sound.volume = m.fadeTargetVolume := by
  induction dts with
  | nil =>
    intro m _ _ _ ht hsum
    simp only [List.sum_nil, add_zero] at hsum
    exact absurd hsum (not_le.mpr ht)
  | cons dt rest ih =>
    intro m hl hf hd ht hsum
    have hne : m.fadeState ≠ FadeState.None := by rw [hf]; decide
    rw [Music.runUpdates_cons]
    by_cases hlt : (m.fadeTimer + dt) / m.fadeDuration < 1
    · rw [Music.Update_fading_lt m dt hl hne hlt]
      have := ih { m with
        fadeTimer := m.fadeTimer + dt,
        sound := ma_sound_set_volume m.sound
          (m.fadeStartVolume +
            (m.fadeTargetVolume - m.fadeStartVolume) * ((m.fadeTimer + dt) / m.fadeDuration)) }
        hl hf hd ((div_lt_one hd).mp hlt)
        (by simp only [List.sum_cons] at hsum; simp only; linarith)
      exact this
    · have hge : 1 ≤ (m.fadeTimer + dt) / m.fadeDuration := not_lt.mp hlt
      rw [Music.Update_fadingIn_ge m dt hl hf hge, Music.runUpdates_of_none rest _ rfl]
      exact ⟨rfl, rfl⟩

theorem Music.fadeIn_before (dts : List ℚ) : ∀ m : Music, m.loaded = true →
    m.fadeState = FadeState.FadingIn → 0 < m.fadeDuration → m.fadeStartVolume = 0 →
    m.sound.volume = m.fadeTargetVolume * (m.fadeTimer / m.fadeDuration) →
    (∀ dt ∈ dts, 0 ≤ dt) → m.fadeTimer + dts.sum < m.fadeDuration →
    (m.runUpdates dts).fadeState = FadeState.FadingIn ∧
      (m.runUpdates dts).sound.volume =
        m.fadeTargetVolume * ((m.fadeTimer + dts.sum) / m.fadeDuration) := by
  induction dts with
  | nil =>
    intro m _ hf _ _ hv _ _
    simpa [Music.runUpdates, hf] using hv
  | cons dt rest ih =>
    intro m hl hf hd hs hv hdt hsum
    have hne : m.fadeState ≠ FadeState.None := by rw [hf]; decide
    have hrest : 0 ≤ rest.sum :=
      List.sum_nonneg (fun x hx => hdt x (List.mem_cons_of_mem _ hx))
    simp only [List.sum_cons] at hsum
    have hlt : (m.fadeTimer + dt) / m.fadeDuration < 1 :=
      (div_lt_one hd).mpr (by linarith)
    rw [Music.runUpdates_cons, Music.Update_fading_lt m dt hl hne hlt]
    have := ih { m with
        fadeTimer := m.fadeTimer + dt,
        sound := ma_sound_set_volume m.sound
          (m.fadeStartVolume +
            (m.fadeTargetVolume - m.fadeStartVolume) * ((m.fadeTimer + dt) / m.fadeDuration)) }
        hl hf hd hs (by simp only [ma_sound_set_volume, hs]; ring)
        (fun x hx => hdt x (List.mem_cons_of_mem _ hx)) (by simp only; linarith)
    simp only [List.sum_cons]
    rw [this.1, this.2]
    exact ⟨rfl, by simp only [add_assoc]⟩

/-- C3: a fade-in of duration `d > 0` on a loaded track (base volume not
negative, as the constructor and `SetVolume` keep it), followed by `Update`
calls with steps `dt ≥ 0` and nothing else: the backend volume is 0 right
after `FadeIn`; the volumes after the successive updates, starting from that
0, never decrease; while the accumulated time is below `d` the fade is still
`FadingIn` at volume `target * elapsed / d`; and after any number `k` of
updates whose accumulated time has reached `d` the backend volume is the
target captured by `FadeIn` and the fade state is `None`. -/
theorem C3_fade_in_monotone_and_complete (m : Music) (d : ℚ) (ok : Bool) (dts : List ℚ)
    (hl : m.loaded = true) (hd : 0 < d) (hv : 0 ≤ m.volume)
    (hdt : ∀ dt ∈ dts, 0 ≤ dt) :
    (m.FadeIn d ok).sound.volume = 0
    ∧ List.Sorted (fun a b : ℚ => a ≤ b) (0 :: (m.FadeIn d ok).volumeTrace dts)
    ∧ (∀ k : ℕ, (dts.take k).sum < d →
        ((m.FadeIn d ok).runUpdates (dts.take k)).fadeState = FadeState.FadingIn ∧
        ((m.FadeIn d ok).runUpdates (dts.take k)).sound.volume =
          (m.FadeIn d ok).fadeTargetVolume * ((dts.take k).sum / d))
    ∧ (∀ k : ℕ, d ≤ (dts.take k).sum →
        ((m.FadeIn d ok).runUpdates (dts.take k)).fadeState = FadeState.None ∧
        ((m.FadeIn d ok).runUpdates (dts.take k)).sound.volume =
          (m.FadeIn d ok).fadeTargetVolume) := by
  have hvol : (m.FadeIn d ok).sound.volume = 0 := by
    rw [Music.FadeIn_pos m d ok hl hd]
    cases ok <;> simp [ma_sound_set_volume, ma_sound_start]
  have hl2 : (m.FadeIn d ok).loaded = true := by rw [Music.FadeIn_pos m d ok hl hd]; exact hl
  have hf2 : (m.FadeIn d ok).fadeState = FadeState.FadingIn := by
    rw [Music.FadeIn_pos m d ok hl hd]
  have hd2 : (m.FadeIn d ok).fadeDuration = d := by rw [Music.FadeIn_pos m d ok hl hd]
  have ht2 : (m.FadeIn d ok).fadeTimer = 0 := by rw [Music.FadeIn_pos m d ok hl hd]
  have hs2 : (m.FadeIn d ok).fadeStartVolume = 0 := by rw [Music.FadeIn_pos m d ok hl hd]
  have hT2 : (m.FadeIn d ok).fadeTargetVolume = m.volume := by
    rw [Music.FadeIn_pos m d ok hl hd]
  have hinv : (m.FadeIn d ok).sound.volume =
      (m.FadeIn d ok).fadeTargetVolume *
        ((m.FadeIn d ok).fadeTimer / (m.FadeIn d ok).fadeDuration) := by
    rw [hvol, ht2]; simp
  refine ⟨hvol, ?_, ?_, ?_⟩
  · have hc := Music.fadeIn_chain dts (m.FadeIn d ok) hl2 hf2 (by rw [hd2]; exact hd) hs2
      (by rw [hT2]; exact hv) (by rw [ht2, hd2]; exact hd) hinv hdt
    rw [hvol] at hc
    exact List.chain_iff_pairwise.mp hc
  · intro k hk
    have := Music.fadeIn_before (dts.take k) (m.FadeIn d ok) hl2 hf2 (by rw [hd2]; exact hd)
      hs2 hinv (fun x hx => hdt x (List.mem_of_mem_take hx)) (by rw [ht2, hd2]; simpa using hk)
    rw [ht2, hd2, zero_add] at this
    exact this
  · intro k hk
    exact Music.fadeIn_reach (dts.take k) (m.FadeIn d ok) hl2 hf2 (by rw [hd2]; exact hd)
      (by rw [ht2, hd2]; exact hd) (by rw [ht2, hd2]; simpa using hk)

/-- Witness of C3: a fresh loaded track, `FadeIn(2)`, then updates of
1/2, 1, 1 and 1 seconds. -/
theorem C3_fade_in_monotone_and_complete_witness :
    (Music.new true).loaded = true ∧ (0 : ℚ) < 2 ∧ 0 ≤ (Music.new true).volume ∧
    List.Sorted (fun a b : ℚ => a ≤ b)
      (0 :: ((Music.new true).FadeIn 2 true).volumeTrace [1 / 2, 1, 1, 1]) :=
  ⟨rfl, by norm_num, by norm_num [Music.new],
    (C3_fade_in_monotone_and_complete (Music.new true) 2 true [1 / 2, 1, 1, 1] rfl
      (by norm_num) (by norm_num [Music.new])
      (by intro dt hdt; simp only [List.mem_cons, List.mem_singleton, List.not_mem_nil,
            or_false] at hdt
          rcases hdt with h | h | h | h <;> rw [h] <;> norm_num)).2.1⟩

theorem Music.runUpdates_append (m : Music) (xs ys : List ℚ) :
    m.runUpdates (xs ++ ys) = (m.runUpdates xs).runUpdates ys := by
  simp [Music.runUpdates, List.foldl_append]

theorem Music.fadeOut_stop_reach (dts : List ℚ) : ∀ m : Music, m.loaded = true →
    m.fadeState = FadeState.FadingOut → m.stopAfterFadeOut = true → 0 < m.fadeDuration →
    m.fadeTimer < m.fadeDuration → m.fadeDuration ≤ m.fadeTimer + dts.sum →
    (m.runUpdates dts).playing = false ∧ (m.runUpdates dts).paused = false ∧
      (m.runUpdates dts).sound.cursor = 0 ∧ (m.runUpdates dts).sound.started = false ∧
      (m.runUpdates dts).fadeState = FadeState.None := by
  induction dts with
  | nil =>
    intro m _ _ _ _ ht hsum
    simp only [List.sum_nil, add_zero] at hsum
    exact absurd hsum (not_le.mpr ht)
  | cons dt rest ih =>
    intro m hl hf hs hd ht hsum
    have hne : m.fadeState ≠ FadeState.None := by rw [hf]; decide
    rw [Music.runUpdates_cons]
    by_cases hlt : (m.fadeTimer + dt) / m.fadeDuration < 1
    · rw [Music.Update_fading_lt m dt hl hne hlt]
      exact ih { m with
        fadeTimer := m.fadeTimer + dt,
        sound := ma_sound_set_volume m.sound
          (m.fadeStartVolume +
            (m.fadeTargetVolume - m.fadeStartVolume) * ((m.fadeTimer + dt) / m.fadeDuration)) }
        hl hf hs hd ((div_lt_one hd).mp hlt)
        (by simp only [List.sum_cons] at hsum; simp only; linarith)
    · have hge : 1 ≤ (m.fadeTimer + dt) / m.fadeDuration := not_lt.mp hlt
      rw [Music.Update_fadingOut_stop m dt hl hf hs hge,
        Music.runUpdates_of_none rest _ (by simp [Music.Stop, hl])]
      simp [Music.Stop, hl, ma_sound_seek_to_pcm_frame, ma_sound_stop]

/-- C4: on a loaded, playing track, after `FadeOut(d, true)` with `d > 0`,
any run of `Update` calls in which the accumulated `dt` reaches `d` (after
some number `k` of the calls) ends with the voice stopped: `playing = false`,
`paused = false`, the backend stopped with its cursor back at frame 0, and
the fade state `None`. -/
theorem C4_fade_out_stops_and_rewinds (m : Music) (d : ℚ) (dts : List ℚ) (k : ℕ)
    (hl : m.loaded = true) (hp : m.playing = true) (hd : 0 < d)
    (hk : d ≤ (dts.take k).sum) :
    ((m.FadeOut d true).runUpdates dts).playing = false ∧
    ((m.FadeOut d true).runUpdates dts).paused = false ∧
    ((m.FadeOut d true).runUpdates dts).sound.cursor = 0 ∧
    ((m.FadeOut d true).runUpdates dts).sound.started = false ∧
    ((m.FadeOut d true).runUpdates dts).fadeState = FadeState.None := by
  have h := Music.fadeOut_stop_reach (dts.take k) (m.FadeOut d true)
    (by rw [Music.FadeOut_pos m d true hl hp hd]; exact hl)
    (by rw [Music.FadeOut_pos m d true hl hp hd])
    (by rw [Music.FadeOut_pos m d true hl hp hd])
    (by rw [Music.FadeOut_pos m d true hl hp hd]; exact hd)
    (by rw [Music.FadeOut_pos m d true hl hp hd]; exact hd)
    (by rw [Music.FadeOut_pos m d true hl hp hd]; simpa using hk)
  have hsplit : (m.FadeOut d true).runUpdates dts =
      ((m.FadeOut d true).runUpdates (dts.take k)).runUpdates (dts.drop k) := by
    rw [← Music.runUpdates_append, List.take_append_drop]
  rw [hsplit, Music.runUpdates_of_none (dts.drop k) _ h.2.2.2.2]
  exact h

/-- Witness of C4: a track that was started with `Play`, `FadeOut(2, true)`,
then updates of 1, 1/2, 1 and 1 seconds (the third one reaches 2). -/
theorem C4_fade_out_stops_and_rewinds_witness :
    ((Music.new true).Play true).1.playing = true ∧
    ((((Music.new true).Play true).1.FadeOut 2 true).runUpdates [1, 1 / 2, 1, 1]).playing
      = false ∧
    ((((Music.new true).Play true).1.FadeOut 2 true).runUpdates
      [1, 1 / 2, 1, 1]).sound.cursor = 0 :=
  have h := C4_fade_out_stops_and_rewinds ((Music.new true).Play true).1 2 [1, 1 / 2, 1, 1] 3
    rfl rfl (by norm_num) (by norm_num)
  ⟨rfl, h.1, h.2.2.1⟩

/-- C5 fails as stated: a loaded track that is not playing and whose cursor
was moved to frame 44100 (`SetPlaybackPosition(1.0)` at 44.1 kHz, track of 10
seconds) has its position reset to frame 0 by `FadeOut(1, true)`. -/
theorem C5_counterexample_position_reset :
    ((Music.new true).SetPlaybackPosition 10 44100 1).playing = false ∧
    ((Music.new true).SetPlaybackPosition 10 44100 1).sound.cursor = 44100 ∧
    (((Music.new true).SetPlaybackPosition 10 44100 1).FadeOut 1 true).sound.cursor = 0 ∧
    ((Music.new true).SetPlaybackPosition 10 44100 1).FadeOut 1 true ≠
      (Music.new true).SetPlaybackPosition 10 44100 1 := by
  have h1 : ((Music.new true).SetPlaybackPosition 10 44100 1).sound.cursor = 44100 := by
    norm_num [Music.SetPlaybackPosition, Music.new, ma_sound_seek_to_pcm_frame, MaSound.init]
    rfl
  have h2 : (((Music.new true).SetPlaybackPosition 10 44100 1).FadeOut 1 true).sound.cursor
      = 0 := by
    simp [Music.FadeOut, Music.Stop, Music.SetPlaybackPosition, Music.new,
      ma_sound_seek_to_pcm_frame, ma_sound_stop]
  refine ⟨by simp [Music.SetPlaybackPosition, Music.new], h1, h2, ?_⟩
  intro h
  rw [h, h1] at h2
  exact absurd h2 (by decide)

/-- C5, amended: on a track that is not playing, `FadeOut(duration, false)`
changes nothing, for every duration; `FadeOut(duration, true)` is exactly
`Music::Stop()`, which on a loaded track stops the backend, resets the cursor
to frame 0 and sets `playing = false`, `paused = false`, fade state `None`,
and which leaves the backend volume and the other fade fields unchanged. -/
theorem C5_fade_out_when_not_playing (m : Music) (d : ℚ) (hp : m.playing = false) :
    m.FadeOut d false = m
    ∧ m.FadeOut d true = m.Stop
    ∧ (m.loaded = true →
        m.Stop = { m with sound := { m.sound with started := false, cursor := 0 },
                          playing := false, paused := false,
                          fadeState := FadeState.None })
    ∧ (m.loaded = false → m.Stop = m)
    ∧ (m.FadeOut d true).sound.volume = m.sound.volume
    ∧ (m.FadeOut d true).fadeDuration = m.fadeDuration
    ∧ (m.FadeOut d true).fadeTimer = m.fadeTimer
    ∧ (m.FadeOut d true).fadeStartVolume = m.fadeStartVolume
    ∧ (m.FadeOut d true).fadeTargetVolume = m.fadeTargetVolume
    ∧ (m.FadeOut d true).playing = false := by
  have h1 : m.FadeOut d true = m.Stop := by simp [Music.FadeOut, hp]
  refine ⟨by simp [Music.FadeOut, hp], h1, ?_, ?_, ?_⟩
  · intro hl
    simp [Music.Stop, hl, ma_sound_seek_to_pcm_frame, ma_sound_stop]
  · intro hl
    simp [Music.Stop, hl]
  · rw [h1]
    by_cases hl : m.loaded = true <;>
      simp [Music.Stop, hl, hp, ma_sound_seek_to_pcm_frame, ma_sound_stop]

/-- Witness of C5 (amended): the freshly constructed track is not playing. -/
theorem C5_fade_out_when_not_playing_witness :
    (Music.new true).playing = false ∧
    (Music.new true).FadeOut 3 false = Music.new true ∧
    (Music.new true).FadeOut 3 true = (Music.new true).Stop :=
  ⟨rfl, (C5_fade_out_when_not_playing (Music.new true) 3 rfl).1,
    (C5_fade_out_when_not_playing (Music.new true) 3 rfl).2.1⟩

/-- C6 fails as stated: on a loaded track in the middle of a fade-in
(`FadeIn(2)` just called: state `FadingIn`, backend volume 0), `FadeIn(0)`
leaves the fade state `FadingIn` and the backend volume 0, while the effective
volume of the track is 1. -/
theorem C6_counterexample_fade_kept :
    ((Music.new true).FadeIn 2 true).loaded = true ∧
    (((Music.new true).FadeIn 2 true).FadeIn 0 true).fadeState = FadeState.FadingIn ∧
    (((Music.new true).FadeIn 2 true).FadeIn 0 true).sound.volume = 0 ∧
    (((Music.new true).FadeIn 2 true).FadeIn 0 true).effectiveVolume AudioEngine.init = 1 ∧
    ¬ ((((Music.new true).FadeIn 2 true).FadeIn 0 true).fadeState = FadeState.None ∧
        (((Music.new true).FadeIn 2 true).FadeIn 0 true).sound.volume =
          (((Music.new true).FadeIn 2 true).FadeIn 0 true).effectiveVolume
            AudioEngine.init) := by
  have hs : (((Music.new true).FadeIn 2 true).FadeIn 0 true).fadeState
      = FadeState.FadingIn := by
    norm_num [Music.FadeIn, Music.Play, Music.new]
  refine ⟨by norm_num [Music.FadeIn, Music.Play, Music.new], hs, ?_, ?_, ?_⟩
  · norm_num [Music.FadeIn, Music.Play, Music.new, ma_sound_set_volume, ma_sound_start,
      MaSound.init]
  · norm_num [Music.FadeIn, Music.Play, Music.new, Music.effectiveVolume, AudioEngine.init,
      AudioEngine.GetCategoryVolume, AudioEngine.IsCategoryMuted]
  · rintro ⟨h, -⟩
    rw [hs] at h
    exact absurd h (by decide)

/-- C6, amended: on a loaded track, `FadeIn(duration)` with `duration ≤ 0` is
exactly `Music::Play()`: when the backend start succeeds the backend is
started and `playing = true`, `paused = false`; the backend volume, the fade
state and the fade fields are left as they were. So the track plays at its
effective volume with fade state `None` whenever, before the call, the fade
state was `None` and the backend volume was the effective volume. -/
theorem C6_fade_in_nonpositive_is_play (m : Music) (e : AudioEngine) (d : ℚ) (ok : Bool)
    (hl : m.loaded = true) (hd : d ≤ 0) :
    m.FadeIn d ok = (m.Play ok).1
    ∧ (m.FadeIn d true).playing = true ∧ (m.FadeIn d true).paused = false
    ∧ (m.FadeIn d true).sound.started = true
    ∧ (m.FadeIn d ok).sound.volume = m.sound.volume
    ∧ (m.FadeIn d ok).fadeState = m.fadeState
    ∧ (m.FadeIn d ok).fadeDuration = m.fadeDuration
    ∧ (m.FadeIn d ok).fadeTimer = m.fadeTimer
    ∧ (m.FadeIn d ok).fadeStartVolume = m.fadeStartVolume
    ∧ (m.FadeIn d ok).fadeTargetVolume = m.fadeTargetVolume
    ∧ (m.fadeState = FadeState.None → m.sound.volume = m.effectiveVolume e →
        (m.FadeIn d ok).fadeState = FadeState.None ∧
        (m.FadeIn d ok).sound.volume = (m.FadeIn d ok).effectiveVolume e) := by
  have h1 : m.FadeIn d ok = (m.Play ok).1 := by simp [Music.FadeIn, hd]
  refine ⟨h1, ?_, ?_, ?_, ?_, ?_, ?_, ?_, ?_, ?_, ?_⟩
  · simp [Music.FadeIn, hd, Music.Play, hl]
  · simp [Music.FadeIn, hd, Music.Play, hl]
  · simp [Music.FadeIn, hd, Music.Play, hl, ma_sound_start]
  all_goals rw [h1]
  all_goals cases ok <;> simp [Music.Play, hl, ma_sound_start, Music.effectiveVolume]
  all_goals intro hf hv
  all_goals exact ⟨hf, by simpa [Music.effectiveVolume] using hv⟩

/-- Witness of C6 (amended): a fresh loaded track and `FadeIn(0)`. -/
theorem C6_fade_in_nonpositive_is_play_witness :
    (Music.new true).loaded = true ∧ (0 : ℚ) ≤ 0 ∧
    (Music.new true).FadeIn 0 true = ((Music.new true).Play true).1 :=
  ⟨rfl, le_refl 0,
    (C6_fade_in_nonpositive_is_play (Music.new true) AudioEngine.init 0 true rfl
      (le_refl 0)).1⟩

theorem Music.Update_fadeState_ne_out (m : Music) (dt : ℚ)
    (h : m.fadeState ≠ FadeState.FadingOut) :
    (m.Update dt).fadeState ≠ FadeState.FadingOut := by
  by_cases hl : m.loaded = true
  swap
  · simpa [Music.Update, hl] using h
  by_cases hn : m.fadeState = FadeState.None
  · simp [Music.Update, hn]
  have hin : m.fadeState = FadeState.FadingIn := by
    cases hfs : m.fadeState <;> simp_all
  by_cases hlt : (m.fadeTimer + dt) / m.fadeDuration < 1
  · rw [Music.Update_fading_lt m dt hl hn hlt]
    exact h
  · rw [Music.Update_fadingIn_ge m dt hl hin (not_lt.mp hlt)]
    simp

theorem Music.Update_stop_flag (m : Music) (dt : ℚ) (b : Bool)
    (h : m.fadeState ≠ FadeState.FadingOut) :
    Music.Update { m with stopAfterFadeOut := b } dt =
      { m.Update dt with stopAfterFadeOut := b } := by
  by_cases hl : m.loaded = true
  swap
  · simp [Music.Update, hl]
  by_cases hn : m.fadeState = FadeState.None
  · simp [Music.Update, hn]
  have hin : m.fadeState = FadeState.FadingIn := by
    cases hfs : m.fadeState <;> simp_all
  by_cases hlt : (m.fadeTimer + dt) / m.fadeDuration < 1
  · rw [Music.Update_fading_lt m dt hl hn hlt,
      Music.Update_fading_lt { m with stopAfterFadeOut := b } dt hl hn hlt]
  · rw [Music.Update_fadingIn_ge m dt hl hin (not_lt.mp hlt),
      Music.Update_fadingIn_ge { m with stopAfterFadeOut := b } dt hl hin (not_lt.mp hlt)]

theorem Music.runUpdates_stop_flag (dts : List ℚ) : ∀ (m : Music) (b : Bool),
    m.fadeState ≠ FadeState.FadingOut →
    Music.runUpdates { m with stopAfterFadeOut := b } dts =
      { m.runUpdates dts with stopAfterFadeOut := b } := by
  induction dts with
  | nil => intros; rfl
  | cons dt rest ih =>
    intro m b h
    rw [Music.runUpdates_cons, Music.runUpdates_cons, Music.Update_stop_flag m dt b h]
    exact ih (m.Update dt) b (Music.Update_fadeState_ne_out m dt h)

/-- C7: a new fade discards the earlier one. Take a loaded track `m` and the
same track with any other fade bookkeeping (`m.withFade ...`: any fade state,
duration, timer, start and target volume, stop flag). After `FadeIn(d)`,
`d > 0`, both have fade state `FadingIn`, duration `d`, elapsed 0, start
volume 0 and target the base volume, and after every run of `Update` calls
they are equal except for the stale `stopAfterFadeOut` flag, which a fade-in
never reads. After `FadeOut(d, s)`, `d > 0`, on a playing track both are the
same voice (state `FadingOut`, duration `d`, elapsed 0, start volume the
backend's current volume, target 0, stop flag `s`), hence equal after every
run of `Update` calls. -/
theorem C7_new_fade_discards_old (m : Music) (f : FadeState) (a b c t : ℚ) (s0 : Bool)
    (d : ℚ) (ok s : Bool) (dts : List ℚ) (hl : m.loaded = true) (hd : 0 < d) :
    ((m.withFade f a b c t s0).FadeIn d ok).fadeState = FadeState.FadingIn
    ∧ ((m.withFade f a b c t s0).FadeIn d ok).fadeDuration = d
    ∧ ((m.withFade f a b c t s0).FadeIn d ok).fadeTimer = 0
    ∧ ((m.withFade f a b c t s0).FadeIn d ok).fadeStartVolume = 0
    ∧ ((m.withFade f a b c t s0).FadeIn d ok).fadeTargetVolume = m.volume
    ∧ ((m.withFade f a b c t s0).FadeIn d ok).runUpdates dts =
        { (m.FadeIn d ok).runUpdates dts with stopAfterFadeOut := s0 }
    ∧ (m.playing = true →
        (m.withFade f a b c t s0).FadeOut d s = m.FadeOut d s
        ∧ ((m.withFade f a b c t s0).FadeOut d s).runUpdates dts =
            (m.FadeOut d s).runUpdates dts
        ∧ (m.FadeOut d s).fadeState = FadeState.FadingOut
        ∧ (m.FadeOut d s).fadeDuration = d
        ∧ (m.FadeOut d s).fadeTimer = 0
        ∧ (m.FadeOut d s).fadeStartVolume = m.sound.volume
        ∧ (m.FadeOut d s).fadeTargetVolume = 0
        ∧ (m.FadeOut d s).stopAfterFadeOut = s) := by
  have hl' : (m.withFade f a b c t s0).loaded = true := hl
  have hin : (m.withFade f a b c t s0).FadeIn d ok =
      { m.FadeIn d ok with stopAfterFadeOut := s0 } := by
    rw [Music.FadeIn_pos _ d ok hl' hd, Music.FadeIn_pos m d ok hl hd]
    rfl
  have hne : (m.FadeIn d ok).fadeState ≠ FadeState.FadingOut := by
    rw [Music.FadeIn_pos m d ok hl hd]
    simp
  refine ⟨?_, ?_, ?_, ?_, ?_, ?_, ?_⟩
  · rw [Music.FadeIn_pos _ d ok hl' hd]
  · rw [Music.FadeIn_pos _ d ok hl' hd]
  · rw [Music.FadeIn_pos _ d ok hl' hd]
  · rw [Music.FadeIn_pos _ d ok hl' hd]
  · rw [Music.FadeIn_pos _ d ok hl' hd]
    rfl
  · rw [hin]
    exact Music.runUpdates_stop_flag dts (m.FadeIn d ok) s0 hne
  · intro hp
    have hp' : (m.withFade f a b c t s0).playing = true := hp
    have hout : (m.withFade f a b c t s0).FadeOut d s = m.FadeOut d s := by
      rw [Music.FadeOut_pos _ d s hl' hp' hd, Music.FadeOut_pos m d s hl hp hd]
      rfl
    refine ⟨hout, by rw [hout], ?_⟩
    rw [Music.FadeOut_pos m d s hl hp hd]
    exact ⟨rfl, rfl, rfl, rfl, rfl, rfl⟩

/-- Witness of C7: a playing track half-way through a 4-second fade-out with
the stop flag set, on which `FadeIn(2)` is called and then updated by 1 and 1
seconds, against the same track without that earlier fade. -/
theorem C7_new_fade_discards_old_witness :
    ((Music.new true).Play true).1.loaded = true ∧ (0 : ℚ) < 2 ∧
    ((((Music.new true).Play true).1.withFade FadeState.FadingOut 4 2 1 0 true).FadeIn 2
        true).runUpdates [1, 1] =
      { (((Music.new true).Play true).1.FadeIn 2 true).runUpdates [1, 1] with
        stopAfterFadeOut := true } :=
  ⟨rfl, by norm_num,
    (C7_new_fade_discards_old ((Music.new true).Play true).1 FadeState.FadingOut 4 2 1 0 true
      2 true false [1, 1] rfl (by norm_num)).2.2.2.2.2.1⟩

theorem Music.UpdateVolume_fading (m : Music) (e : AudioEngine) (hl : m.loaded = true)
    (hf : m.fadeState ≠ FadeState.None) :
    m.UpdateVolume e = { m with fadeTargetVolume := m.effectiveVolume e } := by
  by_cases hm : e.IsCategoryMuted m.category = true <;>
    simp [Music.UpdateVolume, Music.effectiveVolume, hl, hf, hm]

/-- C8: on a loaded track whose fade state is `FadingIn` or `FadingOut`,
`UpdateVolume` (as the engine calls it after `SetCategoryVolume` or
`MuteCategory`), `SetVolume` and `SetCategory` store the newly computed
effective volume in `fadeTargetVolume` and change nothing else besides the
base volume or category they were asked to set: the backend voice (its
volume included), the fade state, the fade duration, the fade timer and the
fade start volume are unchanged. -/
theorem C8_volume_change_during_fade (m : Music) (e : AudioEngine) (v cv : ℚ)
    (cat : AudioCategory) (mute : Bool) (hl : m.loaded = true)
    (hf : m.fadeState ≠ FadeState.None) :
    m.UpdateVolume e = { m with fadeTargetVolume := m.effectiveVolume e }
    ∧ m.SetVolume e v =
        { m with volume := clamp01 v,
                 fadeTargetVolume :=
                   if e.IsCategoryMuted m.category = true then 0
                   else clamp01 v * e.GetCategoryVolume m.category }
    ∧ m.SetCategory e cat =
        { m with category := cat,
                 fadeTargetVolume :=
                   if e.IsCategoryMuted cat = true then 0
                   else m.volume * e.GetCategoryVolume cat }
    ∧ m.UpdateVolume (e.SetCategoryVolume m.category cv) =
        { m with fadeTargetVolume :=
                   if e.IsCategoryMuted m.category = true then 0
                   else m.volume * clamp01 cv }
    ∧ m.UpdateVolume (e.MuteCategory m.category mute) =
        { m with fadeTargetVolume :=
                   if mute = true then 0 else m.volume * e.GetCategoryVolume m.category }
    ∧ (m.UpdateVolume e).sound = m.sound ∧ (m.SetVolume e v).sound = m.sound
    ∧ (m.SetCategory e cat).sound = m.sound
    ∧ (m.UpdateVolume e).fadeState = m.fadeState ∧ (m.SetVolume e v).fadeState = m.fadeState
    ∧ (m.SetCategory e cat).fadeState = m.fadeState
    ∧ (m.UpdateVolume e).fadeDuration = m.fadeDuration
    ∧ (m.SetVolume e v).fadeDuration = m.fadeDuration
    ∧ (m.SetCategory e cat).fadeDuration = m.fadeDuration
    ∧ (m.UpdateVolume e).fadeTimer = m.fadeTimer ∧ (m.SetVolume e v).fadeTimer = m.fadeTimer
    ∧ (m.SetCategory e cat).fadeTimer = m.fadeTimer
    ∧ (m.UpdateVolume e).fadeStartVolume = m.fadeStartVolume
    ∧ (m.SetVolume e v).fadeStartVolume = m.fadeStartVolume
    ∧ (m.SetCategory e cat).fadeStartVolume = m.fadeStartVolume := by
  have h1 := Music.UpdateVolume_fading m e hl hf
  have h2 : m.SetVolume e v =
      { m with volume := clamp01 v,
               fadeTargetVolume :=
                 if e.IsCategoryMuted m.category = true then 0
                 else clamp01 v * e.GetCategoryVolume m.category } := by
    unfold Music.SetVolume
    exact (Music.UpdateVolume_fading { m with volume := clamp01 v } e hl hf).trans rfl
  have h3 : m.SetCategory e cat =
      { m with category := cat,
               fadeTargetVolume :=
                 if e.IsCategoryMuted cat = true then 0
                 else m.volume * e.GetCategoryVolume cat } := by
    unfold Music.SetCategory
    exact (Music.UpdateVolume_fading { m with category := cat } e hl hf).trans rfl
  have h4 : m.UpdateVolume (e.SetCategoryVolume m.category cv) =
      { m with fadeTargetVolume :=
                 if e.IsCategoryMuted m.category = true then 0
                 else m.volume * clamp01 cv } := by
    rw [Music.UpdateVolume_fading _ _ hl hf, Music.effectiveVolume,
      GetCategoryVolume_SetCategoryVolume, IsCategoryMuted_SetCategoryVolume]
  have h5 : m.UpdateVolume (e.MuteCategory m.category mute) =
      { m with fadeTargetVolume :=
                 if mute = true then 0 else m.volume * e.GetCategoryVolume m.category } := by
    rw [Music.UpdateVolume_fading _ _ hl hf]
    simp [Music.effectiveVolume, AudioEngine.MuteCategory, AudioEngine.IsCategoryMuted,
      AudioEngine.GetCategoryVolume]
  refine ⟨h1, h2, h3, h4, h5, ?_⟩
  rw [h1, h2, h3]
  simp

/-- Witness of C8: a track in the middle of a fade-in, whose category is then
muted by the engine. -/
theorem C8_volume_change_during_fade_witness :
    ((Music.new true).FadeIn 2 true).loaded = true ∧
    ((Music.new true).FadeIn 2 true).fadeState ≠ FadeState.None ∧
    ((Music.new true).FadeIn 2 true).UpdateVolume
        (AudioEngine.init.MuteCategory ((Music.new true).FadeIn 2 true).category true) =
      { (Music.new true).FadeIn 2 true with
        fadeTargetVolume :=
          if true = true then 0
          else ((Music.new true).FadeIn 2 true).volume *
            AudioEngine.init.GetCategoryVolume ((Music.new true).FadeIn 2 true).category } :=
  have hl : ((Music.new true).FadeIn 2 true).loaded = true := by
    norm_num [Music.FadeIn, Music.Play, Music.new]
  have hf : ((Music.new true).FadeIn 2 true).fadeState ≠ FadeState.None := by
    rw [Music.FadeIn_pos _ 2 true rfl (by norm_num)]
    simp
  ⟨hl, hf,
    (C8_volume_change_during_fade ((Music.new true).FadeIn 2 true) AudioEngine.init 0 0
      AudioCategory.MUSIC true hl hf).2.2.2.2.1⟩

/-! ## Trigger scheduler: distance triggers -/

theorem updateTriggers_fst (dt dist : ℚ) (l : List (String × SoundTrigger)) :
    (updateTriggers dt dist l).1 =
      l.map (fun en => (en.1, (updateTrigger dt dist en.1 en.2).1)) := by
  induction l with
  | nil => rfl
  | cons en rest ih =>
    obtain ⟨name, t⟩ := en
    simp only [updateTriggers, List.map_cons, ih]

theorem updateTriggers_snd (dt dist : ℚ) (l : List (String × SoundTrigger)) :
    (updateTriggers dt dist l).2 =
      (l.map (fun en => (updateTrigger dt dist en.1 en.2).2)).flatten := by
  induction l with
  | nil => rfl
  | cons en rest ih =>
    obtain ⟨name, t⟩ := en
    simp only [updateTriggers, List.map_cons, List.flatten_cons, ih]

theorem SoundComponent.Update_soundTriggers (c : SoundComponent) (dt dist : ℚ)
    (r : SoundComponent × List AudioCmd) (h : c.Update dt dist = some r) :
    r.1.soundTriggers = (updateTriggers dt dist c.soundTriggers).1 := by
  unfold SoundComponent.Update at h
  simp only at h
  by_cases h1 : c.playingSequence = true ∧ c.sequenceItems ≠ []
  · rw [if_pos h1] at h
    cases hitem : c.sequenceItems[c.currentSequenceIndex]? with
    | none =>
      rw [hitem] at h
      exact absurd h (by simp)
    | some item =>
      rw [hitem] at h
      simp only at h
      by_cases h2 : c.sequenceTimer + dt ≥ item.delay
      · rw [if_pos h2] at h
        obtain rfl := Option.some.inj h
        simp only
        split_ifs <;> rfl
      · rw [if_neg h2] at h
        obtain rfl := Option.some.inj h
        rfl
  · rw [if_neg h1] at h
    obtain rfl := Option.some.inj h
    rfl

theorem updateTrigger_distance (dt dist : ℚ) (name : String) (t : SoundTrigger)
    (ht : t.type = SoundTriggerType.ON_DISTANCE) :
    updateTrigger dt dist name t =
      if dist ≥ 0 ∧ t.active = true then
        if dist ≤ t.parameter then
          ({ t with active := false }, [AudioCmd.PlaySound name false])
        else (t, [])
      else if dist > t.parameter * (3 / 2) then ({ t with active := true }, [])
      else (t, []) := by
  simp only [updateTrigger, ht]

theorem updateTrigger_type (dt dist : ℚ) (name : String) (t : SoundTrigger) :
    (updateTrigger dt dist name t).1.type = t.type ∧
      (updateTrigger dt dist name t).1.parameter = t.parameter := by
  cases hty : t.type
  · simp [updateTrigger, hty]
  · simp only [updateTrigger, hty]
    split_ifs <;> simp [hty]
  · simp only [updateTrigger, hty]
    split_ifs <;> simp [hty]

theorem fires_distance_iff (name : String) (t : SoundTrigger) (x : ℚ × ℚ)
    (ht : t.type = SoundTriggerType.ON_DISTANCE) :
    fires name t x = true ↔ (t.active = true ∧ 0 ≤ x.2 ∧ x.2 ≤ t.parameter) := by
  unfold fires
  rw [updateTrigger_distance _ _ _ _ ht]
  by_cases h1 : x.2 ≥ 0 ∧ t.active = true
  · rw [if_pos h1]
    by_cases h2 : x.2 ≤ t.parameter
    · rw [if_pos h2]
      exact ⟨fun _ => ⟨h1.2, h1.1, h2⟩, fun _ => by simp⟩
    · rw [if_neg h2]
      exact ⟨fun h => absurd h (by simp), fun h => absurd h.2.2 h2⟩
  · rw [if_neg h1]
    have hno : ¬ (t.active = true ∧ 0 ≤ x.2 ∧ x.2 ≤ t.parameter) :=
      fun h => h1 ⟨h.2.1, h.1⟩
    split_ifs
    · exact ⟨fun h => absurd h (by simp), fun h => absurd h hno⟩
    · exact ⟨fun h => absurd h (by simp), fun h => absurd h hno⟩

theorem runTrigger_cons (name : String) (t : SoundTrigger) (x : ℚ × ℚ)
    (xs : List (ℚ × ℚ)) :
    runTrigger name t (x :: xs) = runTrigger name (updateTrigger x.1 x.2 name t).1 xs := rfl

theorem runTrigger_append (name : String) (t : SoundTrigger) (xs ys : List (ℚ × ℚ)) :
    runTrigger name t (xs ++ ys) = runTrigger name (runTrigger name t xs) ys := by
  simp [runTrigger, List.foldl_append]

theorem runTrigger_type (name : String) (xs : List (ℚ × ℚ)) : ∀ t : SoundTrigger,
    (runTrigger name t xs).type = t.type ∧ (runTrigger name t xs).parameter = t.parameter := by
  induction xs with
  | nil => intro t; exact ⟨rfl, rfl⟩
  | cons x rest ih =>
    intro t
    rw [runTrigger_cons]
    obtain ⟨h1, h2⟩ := ih (updateTrigger x.1 x.2 name t).1
    obtain ⟨h3, h4⟩ := updateTrigger_type x.1 x.2 name t
    exact ⟨h1.trans h3, h2.trans h4⟩

theorem runTrigger_stays_disarmed (name : String) (xs : List (ℚ × ℚ)) :
    ∀ t : SoundTrigger, t.type = SoundTriggerType.ON_DISTANCE → t.active = false →
    (∀ z ∈ xs, ¬ t.parameter * (3 / 2) < z.2) → (runTrigger name t xs).active = false := by
  induction xs with
  | nil => intro t _ ha _; exact ha
  | cons x rest ih =>
    intro t ht ha hz
    rw [runTrigger_cons]
    have hx : ¬ t.parameter * (3 / 2) < x.2 := hz x (List.mem_cons_self _ _)
    have hstep : (updateTrigger x.1 x.2 name t).1 = t := by
      rw [updateTrigger_distance _ _ _ _ ht]
      simp [ha, hx]
    rw [hstep]
    exact ih t ht ha (fun z hzmem => hz z (List.mem_cons_of_mem _ hzmem))

/-- The distance branch of the trigger loop, for one trigger: at most one
call per visit; it fires exactly when the trigger is armed and
`0 ≤ distance ≤ parameter`, the call being `PlaySound(name, false)` and the
trigger being disarmed by it; between two visits on which it fires there is a
visit that saw `distance > 1.5 * parameter`; and the trace for parameter 5. -/
theorem distance_branch_facts (name : String) (t : SoundTrigger)
    (pre mid : List (ℚ × ℚ)) (x y : ℚ × ℚ)
    (ht : t.type = SoundTriggerType.ON_DISTANCE) :
    (updateTrigger x.1 x.2 name t).2.length ≤ 1
    ∧ (fires name t x = true ↔ (t.active = true ∧ 0 ≤ x.2 ∧ x.2 ≤ t.parameter))
    ∧ (fires name t x = true →
        (updateTrigger x.1 x.2 name t).2 = [AudioCmd.PlaySound name false] ∧
        (updateTrigger x.1 x.2 name t).1.active = false)
    ∧ (fires name (runTrigger name t pre) x = true →
        fires name (runTrigger name t (pre ++ x :: mid)) y = true →
        ∃ z ∈ mid, t.parameter * (3 / 2) < z.2)
    ∧ firingTrace name (SoundTrigger.fresh SoundTriggerType.ON_DISTANCE 5 "")
        [(0, 10), (0, 5), (0, 3), (0, 6), (0, 15 / 2), (0, 4), (0, 8), (0, 6), (0, 5), (0, 4)]
        = [false, true, false, false, false, false, false, false, true, false] := by
  refine ⟨?_, fires_distance_iff name t x ht, ?_, ?_, ?_⟩
  · rw [updateTrigger_distance _ _ _ _ ht]
    split_ifs <;> simp
  · intro hfire
    obtain ⟨ha, h0, hp⟩ := (fires_distance_iff name t x ht).mp hfire
    rw [updateTrigger_distance _ _ _ _ ht]
    simp [ha, h0, hp]
  · intro hx hy
    by_contra hno
    push_neg at hno
    have htp := runTrigger_type name pre t
    have ht1 : (runTrigger name t pre).type = SoundTriggerType.ON_DISTANCE := htp.1.trans ht
    obtain ⟨ha, h0, hp⟩ := (fires_distance_iff name _ x ht1).mp hx
    have hstep : (updateTrigger x.1 x.2 name (runTrigger name t pre)).1.active = false := by
      rw [updateTrigger_distance _ _ _ _ ht1]
      simp [ha, h0, hp]
    have hty2 := updateTrigger_type x.1 x.2 name (runTrigger name t pre)
    have hrun : runTrigger name t (pre ++ x :: mid) =
        runTrigger name (updateTrigger x.1 x.2 name (runTrigger name t pre)).1 mid := by
      rw [runTrigger_append, runTrigger_cons]
    have hdis := runTrigger_stays_disarmed name mid _ (hty2.1.trans ht1) hstep
      (fun z hz => by rw [hty2.2, htp.2]; exact not_lt.mpr (hno z hz))
    have hty3 := runTrigger_type name mid (updateTrigger x.1 x.2 name (runTrigger name t pre)).1
    rw [hrun] at hy
    have := (fires_distance_iff name _ y (hty3.1.trans (hty2.1.trans ht1))).mp hy
    rw [hdis] at this
    exact absurd this.1 (by decide)
  · norm_num [firingTrace, fires, updateTrigger, SoundTrigger.fresh]

theorem updateTrigger_timer (dt dist : ℚ) (name : String) (t : SoundTrigger)
    (ht : t.type = SoundTriggerType.ON_TIMER) :
    updateTrigger dt dist name t =
      if t.accumulator + dt ≥ t.parameter then
        ({ t with accumulator := 0 }, [AudioCmd.PlaySound name false])
      else ({ t with accumulator := t.accumulator + dt }, []) := by
  simp only [updateTrigger, ht]

/-- The timer branch of the trigger loop, for one trigger: one visit adds
`dt` to the accumulator and makes at most one call; it fires exactly when the
accumulator after the addition is at least the parameter, and then the
accumulator is exactly 0; otherwise the accumulator is the sum. The other
fields of the trigger are unchanged. -/
theorem timer_branch_facts (name : String) (t : SoundTrigger) (dt dist : ℚ)
    (ht : t.type = SoundTriggerType.ON_TIMER) :
    (updateTrigger dt dist name t).2.length ≤ 1
    ∧ (fires name t (dt, dist) = true ↔ t.parameter ≤ t.accumulator + dt)
    ∧ (t.parameter ≤ t.accumulator + dt →
        updateTrigger dt dist name t =
          ({ t with accumulator := 0 }, [AudioCmd.PlaySound name false]))
    ∧ (t.accumulator + dt < t.parameter →
        updateTrigger dt dist name t = ({ t with accumulator := t.accumulator + dt }, []))
    ∧ (updateTrigger dt dist name t).1.type = t.type
    ∧ (updateTrigger dt dist name t).1.parameter = t.parameter
    ∧ (updateTrigger dt dist name t).1.eventName = t.eventName
    ∧ (updateTrigger dt dist name t).1.active = t.active := by
  have h := updateTrigger_timer dt dist name t ht
  by_cases hge : t.accumulator + dt ≥ t.parameter
  · rw [if_pos hge] at h
    refine ⟨by rw [h]; simp, ?_, fun _ => h, fun hlt => absurd hge (not_le.mpr hlt), ?_⟩
    · unfold fires
      rw [h]
      exact ⟨fun _ => hge, fun _ => by simp⟩
    · rw [h]
      exact ⟨rfl, rfl, rfl, rfl⟩
  · rw [if_neg hge] at h
    refine ⟨by rw [h]; simp, ?_, fun hle => absurd hle hge, fun _ => h, ?_⟩
    · unfold fires
      rw [h]
      exact ⟨fun hf => absurd hf (by simp), fun hle => absurd hle hge⟩
    · rw [h]
      exact ⟨rfl, rfl, rfl, rfl⟩

theorem mapAssign_mapAssign {α : Type} (key : String) (v1 v2 : α) (l : List (String × α)) :
    mapAssign key v2 (mapAssign key v1 l) = mapAssign key v2 l := by
  induction l with
  | nil => simp [mapAssign]
  | cons en rest ih =>
    obtain ⟨k, v⟩ := en
    by_cases hk : k = key
    · simp [mapAssign, hk]
    · simp [mapAssign, hk, ih]

theorem mapAssign_keys_mem {α : Type} (key : String) (v : α) (l : List (String × α))
    (k : String) (hk : k ∈ (mapAssign key v l).map Prod.fst) :
    k = key ∨ k ∈ l.map Prod.fst := by
  induction l with
  | nil =>
    simp [mapAssign] at hk
    exact Or.inl hk
  | cons en rest ih =>
    obtain ⟨k0, v0⟩ := en
    by_cases h0 : k0 = key
    · simp [mapAssign, h0] at hk
      rcases hk with h | h
      · exact Or.inl h
      · exact Or.inr (by simp only [List.map_cons, List.mem_cons]; exact Or.inr (by simpa using h))
    · simp only [mapAssign, h0, if_false, List.map_cons, List.mem_cons] at hk
      rcases hk with h | h
      · exact Or.inr (by simp [h])
      · rcases ih h with h1 | h1
        · exact Or.inl h1
        · exact Or.inr (by simp only [List.map_cons, List.mem_cons]; exact Or.inr h1)

theorem mapAssign_nodup {α : Type} (key : String) (v : α) (l : List (String × α))
    (hn : (l.map Prod.fst).Nodup) : ((mapAssign key v l).map Prod.fst).Nodup := by
  induction l with
  | nil => simp [mapAssign]
  | cons en rest ih =>
    obtain ⟨k0, v0⟩ := en
    simp only [List.map_cons, List.nodup_cons] at hn
    by_cases h0 : k0 = key
    · simp only [mapAssign, h0, if_true, List.map_cons, List.nodup_cons]
      exact ⟨h0 ▸ hn.1, hn.2⟩
    · simp only [mapAssign, h0, if_false, List.map_cons, List.nodup_cons]
      refine ⟨fun hmem => ?_, ih hn.2⟩
      rcases mapAssign_keys_mem key v rest k0 hmem with h | h
      · exact h0 h
      · exact hn.1 h

theorem mapAssign_filter {α : Type} (key : String) (v : α) (l : List (String × α))
    (hn : (l.map Prod.fst).Nodup) :
    (mapAssign key v l).filter (fun en => en.1 = key) = [(key, v)] := by
  induction l with
  | nil => simp [mapAssign]
  | cons en rest ih =>
    obtain ⟨k0, v0⟩ := en
    simp only [List.map_cons, List.nodup_cons] at hn
    by_cases h0 : k0 = key
    · have hrest : rest.filter (fun en => en.1 = key) = [] := by
        rw [List.filter_eq_nil_iff]
        intro x hx hxk
        have hxk' : x.1 = key := by simpa using hxk
        exact hn.1 (by rw [h0, ← hxk']; exact List.mem_map_of_mem Prod.fst hx)
      simp [mapAssign, h0, hrest]
    · simp [mapAssign, h0, ih hn.2]

theorem AddSoundTrigger_nodup (c : SoundComponent) (name : String) (k : SoundTriggerType)
    (p : ℚ) (ev : String) (hn : (c.soundTriggers.map Prod.fst).Nodup) :
    ((c.AddSoundTrigger name k p ev).soundTriggers.map Prod.fst).Nodup := by
  by_cases hs : name ∈ c.sounds
  · simp only [SoundComponent.AddSoundTrigger, hs, not_true_eq_false, if_false]
    exact mapAssign_nodup name _ _ hn
  · simp only [SoundComponent.AddSoundTrigger, hs, not_false_eq_true, if_true]
    exact hn

/-- C12: on a component whose `sounds` map has the name, registering a
trigger for it and then a second one leaves the component exactly as the
second registration alone would: every later `Update` and `TriggerEvent`
therefore sees the second trigger only. The map (keys distinct) holds exactly
one entry under the name, the second registration with its kind, parameter and
event name, accumulator 0 and armed; and `TriggerEvent` calls `PlaySound` for
the name only if the second trigger is an event trigger of that event. -/
theorem C12_second_registration_replaces (c : SoundComponent) (name : String)
    (k1 k2 : SoundTriggerType) (p1 p2 : ℚ) (e1 e2 ev : String)
    (hs : name ∈ c.sounds) (hn : (c.soundTriggers.map Prod.fst).Nodup) :
    (c.AddSoundTrigger name k1 p1 e1).AddSoundTrigger name k2 p2 e2 =
        c.AddSoundTrigger name k2 p2 e2
    ∧ ((c.AddSoundTrigger name k1 p1 e1).AddSoundTrigger name k2 p2 e2).soundTriggers.filter
          (fun en => en.1 = name) =
        [(name, { type := k2, parameter := p2, eventName := e2, accumulator := 0,
                  active := true })]
    ∧ (AudioCmd.PlaySound name false ∈
          ((c.AddSoundTrigger name k1 p1 e1).AddSoundTrigger name k2 p2 e2).TriggerEvent ev →
        k2 = SoundTriggerType.ON_EVENT ∧ e2 = ev) := by
  have h1 : (c.AddSoundTrigger name k1 p1 e1).AddSoundTrigger name k2 p2 e2 =
      c.AddSoundTrigger name k2 p2 e2 := by
    simp [SoundComponent.AddSoundTrigger, hs, mapAssign_mapAssign]
  have h2 : (c.AddSoundTrigger name k2 p2 e2).soundTriggers.filter (fun en => en.1 = name) =
      [(name, SoundTrigger.fresh k2 p2 e2)] := by
    simp only [SoundComponent.AddSoundTrigger, hs, not_true_eq_false, if_false]
    exact mapAssign_filter name _ _ hn
  refine ⟨h1, by rw [h1, h2]; rfl, ?_⟩
  rw [h1]
  intro hmem
  unfold SoundComponent.TriggerEvent at hmem
  rw [List.mem_flatten] at hmem
  obtain ⟨cmds, hcmds, hin⟩ := hmem
  rw [List.mem_map] at hcmds
  obtain ⟨en, hen, rfl⟩ := hcmds
  split_ifs at hin with hcond
  · have hname : en.1 = name := by
      have hc := List.mem_singleton.mp hin
      injection hc with hc1 _
      exact hc1.symm
    have hen2 : en ∈ (c.AddSoundTrigger name k2 p2 e2).soundTriggers.filter
        (fun en => en.1 = name) := by
      rw [List.mem_filter]
      exact ⟨hen, by simpa using hname⟩
    rw [h2] at hen2
    have hen3 : en = (name, SoundTrigger.fresh k2 p2 e2) := by simpa using hen2
    rw [hen3] at hcond
    exact ⟨hcond.1, hcond.2.1⟩
  · simp at hin

/-- Witness of C12: sound "door" first gets an event trigger for "open", then
a timer trigger of 3 seconds. -/
theorem C12_second_registration_replaces_witness :
    "door" ∈ (SoundComponent.new ["door"] []).sounds ∧
    (((SoundComponent.new ["door"] []).soundTriggers.map Prod.fst).Nodup) ∧
    ((SoundComponent.new ["door"] []).AddSoundTrigger "door" SoundTriggerType.ON_EVENT 0
        "open").AddSoundTrigger "door" SoundTriggerType.ON_TIMER 3 "" =
      (SoundComponent.new ["door"] []).AddSoundTrigger "door" SoundTriggerType.ON_TIMER 3 "" :=
  ⟨by simp [SoundComponent.new], by simp [SoundComponent.new],
    (C12_second_registration_replaces (SoundComponent.new ["door"] []) "door"
      SoundTriggerType.ON_EVENT SoundTriggerType.ON_TIMER 0 3 "open" "" "open"
      (by simp [SoundComponent.new]) (by simp [SoundComponent.new])).1⟩

/-! ## Sequence player -/

/-- C13 fails as stated in its last part: on a component with a running
sequence, the rejected calls `PlaySoundSequence([], [])` and
`PlaySoundSequence(["a"], [1, 2])` change nothing and issue no call, and what
they hand back to the caller is what an accepted call hands back, the unit
value of a `void` function: no failure is reported. -/
theorem C13_counterexample_nothing_reported :
    ((SoundComponent.new ["a", "b"] []).PlaySoundSequence ["a", "b"] [0, 1]).1.PlaySoundSequence
        [] [] =
      (((SoundComponent.new ["a", "b"] []).PlaySoundSequence ["a", "b"] [0, 1]).1, [])
    ∧ ((SoundComponent.new ["a", "b"] []).PlaySoundSequence ["a", "b"] [0, 1]).1.PlaySoundSequence
        ["a"] [1, 2] =
      (((SoundComponent.new ["a", "b"] []).PlaySoundSequence ["a", "b"] [0, 1]).1, [])
    ∧ SoundComponent.PlaySoundSequence_result
        ((SoundComponent.new ["a", "b"] []).PlaySoundSequence ["a", "b"] [0, 1]).1 [] [] =
      SoundComponent.PlaySoundSequence_result
        ((SoundComponent.new ["a", "b"] []).PlaySoundSequence ["a", "b"] [0, 1]).1 ["b"] [0]
    ∧ SoundComponent.PlaySoundSequence_result
        ((SoundComponent.new ["a", "b"] []).PlaySoundSequence ["a", "b"] [0, 1]).1 ["a"] [1, 2] =
      SoundComponent.PlaySoundSequence_result
        ((SoundComponent.new ["a", "b"] []).PlaySoundSequence ["a", "b"] [0, 1]).1 ["b"] [0] := by
  refine ⟨?_, ?_, rfl, rfl⟩
  · simp [SoundComponent.PlaySoundSequence]
  · simp [SoundComponent.PlaySoundSequence]

/-- C13, amended: `PlaySoundSequence` called with an empty name list, or with
name and delay lists of different lengths, returns at once: the component
(item list, cursor, timer, playing flag and everything else) is unchanged and
no sound is stopped; so it is for `([], [])` and `(["a"], [1, 2])`. The
function is `void`: the rejection is silent, nothing is reported to the
caller. -/
theorem C13_rejected_sequence_unchanged (c : SoundComponent) (soundNames : List String)
    (delays : List ℚ) (h : soundNames = [] ∨ soundNames.length ≠ delays.length) :
    c.PlaySoundSequence soundNames delays = (c, [])
    ∧ c.PlaySoundSequence [] [] = (c, [])
    ∧ c.PlaySoundSequence ["a"] [1, 2] = (c, [])
    ∧ SoundComponent.PlaySoundSequence_result c soundNames delays = () := by
  refine ⟨?_, ?_, ?_, rfl⟩
  · simp [SoundComponent.PlaySoundSequence, h]
  · simp [SoundComponent.PlaySoundSequence]
  · simp [SoundComponent.PlaySoundSequence]

/-- Witness of C13 (amended): two names against one delay, on a component
with a running sequence. -/
theorem C13_rejected_sequence_unchanged_witness :
    (["x", "y"] = ([] : List String) ∨ ["x", "y"].length ≠ [(1 : ℚ)].length) ∧
    ((SoundComponent.new ["a"] []).PlaySoundSequence ["a"] [0]).1.PlaySoundSequence
        ["x", "y"] [1] =
      (((SoundComponent.new ["a"] []).PlaySoundSequence ["a"] [0]).1, []) :=
  ⟨Or.inr (by decide),
    (C13_rejected_sequence_unchanged ((SoundComponent.new ["a"] []).PlaySoundSequence ["a"] [0]).1
      ["x", "y"] [1] (Or.inr (by decide))).1⟩

theorem SoundComponent.Update_sequence_play (c : SoundComponent) (dt dist : ℚ)
    (item : SoundSequenceItem) (hp : c.playingSequence = true)
    (hitem : c.sequenceItems[c.currentSequenceIndex]? = some item)
    (hdelay : item.delay ≤ c.sequenceTimer + dt) :
    c.Update dt dist =
      some ({ c with
              music := c.music.map (fun p => (p.1, p.2.Update dt)),
              soundTriggers := (updateTriggers dt dist c.soundTriggers).1,
              currentSequenceIndex := c.currentSequenceIndex + 1,
              sequenceTimer := 0,
              playingSequence := decide (c.currentSequenceIndex + 1 < c.sequenceItems.length) },
        (updateTriggers dt dist c.soundTriggers).2 ++ [AudioCmd.PlaySound item.soundName false]) := by
  have hne : c.sequenceItems ≠ [] := by
    intro h
    rw [h] at hitem
    simp at hitem
  unfold SoundComponent.Update
  simp only [hp, hne, ne_eq, not_false_eq_true, and_self, if_true, hitem, ge_iff_le, hdelay]
  by_cases hlast : c.sequenceItems.length ≤ c.currentSequenceIndex + 1
  · simp [hlast, not_lt.mpr hlast]
  · simp [hlast, not_le.mp hlast, hp]

theorem SoundComponent.Update_sequence_wait (c : SoundComponent) (dt dist : ℚ)
    (item : SoundSequenceItem) (hp : c.playingSequence = true)
    (hitem : c.sequenceItems[c.currentSequenceIndex]? = some item)
    (hdelay : c.sequenceTimer + dt < item.delay) :
    c.Update dt dist =
      some ({ c with
              music := c.music.map (fun p => (p.1, p.2.Update dt)),
              soundTriggers := (updateTriggers dt dist c.soundTriggers).1,
              sequenceTimer := c.sequenceTimer + dt },
        (updateTriggers dt dist c.soundTriggers).2) := by
  have hne : c.sequenceItems ≠ [] := by
    intro h
    rw [h] at hitem
    simp at hitem
  unfold SoundComponent.Update
  simp [hp, hne, hitem, not_le.mpr hdelay]

theorem SoundComponent.Update_sequence_idle (c : SoundComponent) (dt dist : ℚ)
    (h : ¬ (c.playingSequence = true ∧ c.sequenceItems ≠ [])) :
    c.Update dt dist =
      some ({ c with
              music := c.music.map (fun p => (p.1, p.2.Update dt)),
              soundTriggers := (updateTriggers dt dist c.soundTriggers).1 },
        (updateTriggers dt dist c.soundTriggers).2) := by
  unfold SoundComponent.Update
  simp only [h, if_false]

/-- C16 fails as stated: a one-item sequence `[("a", 0)]` started on a fresh
component; the update that plays the item sets `playingSequence = false` but
leaves the item list as it was, one item long. -/
theorem C16_counterexample_items_kept :
    (((SoundComponent.new ["a"] []).PlaySoundSequence ["a"] [0]).1.Update 1 (-1)).map
        (fun r => (r.1.playingSequence, r.1.sequenceItems, r.2)) =
      some (false, [{ soundName := "a", delay := 0 }], [AudioCmd.PlaySound "a" false])
    ∧ (((SoundComponent.new ["a"] []).PlaySoundSequence ["a"] [0]).1.Update 1 (-1)).map
        (fun r => decide (r.1.sequenceItems = [])) = some false := by
  have h := SoundComponent.Update_sequence_play
    ((SoundComponent.new ["a"] []).PlaySoundSequence ["a"] [0]).1 1 (-1)
    { soundName := "a", delay := 0 }
    (by simp [SoundComponent.PlaySoundSequence, SoundComponent.StopSoundSequence])
    (by simp [SoundComponent.PlaySoundSequence, SoundComponent.StopSoundSequence])
    (by norm_num [SoundComponent.PlaySoundSequence, SoundComponent.StopSoundSequence,
      SoundComponent.new])
  rw [h]
  constructor <;>
    simp [SoundComponent.PlaySoundSequence, SoundComponent.StopSoundSequence,
      SoundComponent.new, updateTriggers]

/-- C16, amended: for a running sequence whose cursor is on the last item, the
update on which the timer reaches that item's delay calls
`PlaySound(item, false)`, sets `playingSequence = false`, moves the cursor to
the length of the list and resets the timer to 0; the item list itself is
kept as it is (it is cleared only by the next `StopSoundSequence` or accepted
`PlaySoundSequence`). -/
theorem C16_last_item_ends_sequence (c : SoundComponent) (dt dist : ℚ)
    (item : SoundSequenceItem) (hp : c.playingSequence = true)
    (hitem : c.sequenceItems[c.currentSequenceIndex]? = some item)
    (hlast : c.currentSequenceIndex + 1 = c.sequenceItems.length)
    (hdelay : item.delay ≤ c.sequenceTimer + dt) :
    ∃ c1 : SoundComponent,
      c.Update dt dist =
        some (c1, (updateTriggers dt dist c.soundTriggers).2 ++
          [AudioCmd.PlaySound item.soundName false])
      ∧ c1.playingSequence = false
      ∧ c1.sequenceItems = c.sequenceItems
      ∧ c1.sequenceItems ≠ []
      ∧ c1.currentSequenceIndex = c.sequenceItems.length
      ∧ c1.sequenceTimer = 0
      ∧ c1.StopSoundSequence.1.sequenceItems = [] := by
  refine ⟨_, SoundComponent.Update_sequence_play c dt dist item hp hitem hdelay, ?_, rfl, ?_,
    hlast, rfl, rfl⟩
  · simp [hlast]
  · intro h
    simp only at h
    rw [h] at hitem
    simp at hitem

/-- Witness of C16 (amended): the one-item sequence `[("a", 0)]` on a fresh
component, updated by 1 second. -/
theorem C16_last_item_ends_sequence_witness :
    ∃ c1 : SoundComponent,
      ((SoundComponent.new ["a"] []).PlaySoundSequence ["a"] [0]).1.Update 1 (-1) =
        some (c1, (updateTriggers 1 (-1)
          ((SoundComponent.new ["a"] []).PlaySoundSequence ["a"] [0]).1.soundTriggers).2 ++
          [AudioCmd.PlaySound "a" false])
      ∧ c1.playingSequence = false
      ∧ c1.sequenceItems = ((SoundComponent.new ["a"] []).PlaySoundSequence ["a"] [0]).1.sequenceItems :=
  have h := C16_last_item_ends_sequence
    ((SoundComponent.new ["a"] []).PlaySoundSequence ["a"] [0]).1 1 (-1)
    { soundName := "a", delay := 0 }
    (by simp [SoundComponent.PlaySoundSequence, SoundComponent.StopSoundSequence])
    (by simp [SoundComponent.PlaySoundSequence, SoundComponent.StopSoundSequence])
    (by simp [SoundComponent.PlaySoundSequence, SoundComponent.StopSoundSequence])
    (by norm_num [SoundComponent.PlaySoundSequence, SoundComponent.StopSoundSequence,
      SoundComponent.new])
  h.elim (fun c1 hc => ⟨c1, hc.1, hc.2.1, hc.2.2.1⟩)

theorem SoundComponent.Update_total_of_bound (c : SoundComponent) (dt dist : ℚ)
    (h : c.playingSequence = true → c.currentSequenceIndex < c.sequenceItems.length) :
    ∃ r, c.Update dt dist = some r := by
  by_cases hp : c.playingSequence = true ∧ c.sequenceItems ≠ []
  · have hlt := h hp.1
    have hitem : c.sequenceItems[c.currentSequenceIndex]? =
        some (c.sequenceItems.get ⟨c.currentSequenceIndex, hlt⟩) := by
      simp [List.getElem?_eq_getElem hlt]
    by_cases hd : (c.sequenceItems.get ⟨c.currentSequenceIndex, hlt⟩).delay ≤ c.sequenceTimer + dt
    · exact ⟨_, SoundComponent.Update_sequence_play c dt dist _ hp.1 hitem hd⟩
    · exact ⟨_, SoundComponent.Update_sequence_wait c dt dist _ hp.1 hitem (not_le.mp hd)⟩
  · exact ⟨_, SoundComponent.Update_sequence_idle c dt dist hp⟩

theorem SoundComponent.Update_keeps_bound (c : SoundComponent) (dt dist : ℚ)
    (r : SoundComponent × List AudioCmd)
    (h : c.playingSequence = true → c.currentSequenceIndex < c.sequenceItems.length)
    (hr : c.Update dt dist = some r) :
    r.1.playingSequence = true → r.1.currentSequenceIndex < r.1.sequenceItems.length := by
  by_cases hp : c.playingSequence = true ∧ c.sequenceItems ≠ []
  · have hlt := h hp.1
    have hitem : c.sequenceItems[c.currentSequenceIndex]? =
        some (c.sequenceItems.get ⟨c.currentSequenceIndex, hlt⟩) := by
      simp [List.getElem?_eq_getElem hlt]
    by_cases hd : (c.sequenceItems.get ⟨c.currentSequenceIndex, hlt⟩).delay ≤ c.sequenceTimer + dt
    · rw [SoundComponent.Update_sequence_play c dt dist _ hp.1 hitem hd] at hr
      obtain rfl := Option.some.inj hr
      intro hplay
      simpa using hplay
    · rw [SoundComponent.Update_sequence_wait c dt dist _ hp.1 hitem (not_le.mp hd)] at hr
      obtain rfl := Option.some.inj hr
      exact h
  · rw [SoundComponent.Update_sequence_idle c dt dist hp] at hr
    obtain rfl := Option.some.inj hr
    exact h

theorem SoundComponent.PlaySoundSequence_accepted (c : SoundComponent)
    (soundNames : List String) (delays : List ℚ) (hne : soundNames ≠ [])
    (hlen : soundNames.length = delays.length) :
    (c.PlaySoundSequence soundNames delays).1 =
      { c with
        sequenceItems :=
          List.zipWith (fun n d => ({ soundName := n, delay := d } : SoundSequenceItem))
            soundNames delays,
        currentSequenceIndex := 0, sequenceTimer := 0, playingSequence := true } := by
  simp [SoundComponent.PlaySoundSequence, SoundComponent.StopSoundSequence, hne, hlen]

/-- C15: in every state reachable from a freshly constructed `SoundComponent`
through `PlaySoundSequence`, `StopSoundSequence` and `Update` (any arguments),
`playingSequence = true` implies `currentSequenceIndex < sequenceItems.size()`;
so the item list is then not empty, the read
`sequenceItems[currentSequenceIndex]` of `Update` is in bounds (the update
returns a state, for every `dt` and distance) and so is the guarded read of
`StopSoundSequence`. -/
theorem C15_cursor_in_bounds (c : SoundComponent) (hc : SoundComponent.Reachable c) :
    (c.playingSequence = true → c.currentSequenceIndex < c.sequenceItems.length)
    ∧ (c.playingSequence = true → c.sequenceItems ≠ [])
    ∧ (∀ dt dist : ℚ, ∃ r, c.Update dt dist = some r)
    ∧ (c.playingSequence = true →
        ∃ item, c.sequenceItems[c.currentSequenceIndex]? = some item ∧
          c.StopSoundSequence.2 = [AudioCmd.StopSound item.soundName]) := by
  have hb : c.playingSequence = true → c.currentSequenceIndex < c.sequenceItems.length := by
    induction hc with
    | new sounds music => intro h; simp [SoundComponent.new] at h
    | PlaySoundSequence c names delays _ ih =>
      by_cases hrej : names = [] ∨ names.length ≠ delays.length
      · simpa [SoundComponent.PlaySoundSequence, hrej] using ih
      · have hne : names ≠ [] := fun h => hrej (Or.inl h)
        have hlen : names.length = delays.length := by
          by_contra h
          exact hrej (Or.inr h)
        rw [SoundComponent.PlaySoundSequence_accepted c names delays hne hlen]
        intro _
        simp only [List.length_zipWith, ← hlen, min_self]
        exact List.length_pos.mpr hne
    | StopSoundSequence c _ _ => intro h; simp [SoundComponent.StopSoundSequence] at h
    | Update c dt dist r _ hr ih => exact SoundComponent.Update_keeps_bound c dt dist r ih hr
  refine ⟨hb, ?_, fun dt dist => SoundComponent.Update_total_of_bound c dt dist hb, ?_⟩
  · intro hp hnil
    have := hb hp
    rw [hnil] at this
    simp at this
  · intro hp
    have hlt := hb hp
    refine ⟨c.sequenceItems.get ⟨c.currentSequenceIndex, hlt⟩, ?_, ?_⟩
    · simp [List.getElem?_eq_getElem hlt]
    · simp [SoundComponent.StopSoundSequence, hp, hlt]

/-- Witness of C15: a fresh component on which `[("a", 0), ("b", 1)]` was
started and then stopped and started again. -/
theorem C15_cursor_in_bounds_witness :
    ∃ r,
      ((((SoundComponent.new ["a", "b"] []).PlaySoundSequence ["a", "b"]
        [0, 1]).1.StopSoundSequence.1.PlaySoundSequence ["b"] [2]).1).Update 1 (-1) = some r :=
  (C15_cursor_in_bounds _
    (SoundComponent.Reachable.PlaySoundSequence _ ["b"] [2]
      (SoundComponent.Reachable.StopSoundSequence _
        (SoundComponent.Reachable.PlaySoundSequence _ ["a", "b"] [0, 1]
          (SoundComponent.Reachable.new ["a", "b"] []))))).2.2.1 1 (-1)

theorem zipWith_items_names (soundNames : List String) : ∀ delays : List ℚ,
    soundNames.length = delays.length →
    (List.zipWith (fun n d => ({ soundName := n, delay := d } : SoundSequenceItem))
      soundNames delays).map (fun it => it.soundName) = soundNames := by
  induction soundNames with
  | nil => intro delays _; rfl
  | cons n rest ih =>
    intro delays hlen
    cases delays with
    | nil => simp at hlen
    | cons d ds =>
      simp only [List.zipWith_cons_cons, List.map_cons]
      rw [ih ds (by simpa using hlen)]

theorem zipWith_items_delay (soundNames : List String) : ∀ (delays : List ℚ)
    (it : SoundSequenceItem),
    it ∈ List.zipWith (fun n d => ({ soundName := n, delay := d } : SoundSequenceItem))
      soundNames delays → it.delay ∈ delays := by
  induction soundNames with
  | nil => intro delays it h; simp at h
  | cons n rest ih =>
    intro delays it h
    cases delays with
    | nil => simp at h
    | cons d ds =>
      simp only [List.zipWith_cons_cons, List.mem_cons] at h
      rcases h with h | h
      · rw [h]; exact List.mem_cons_self _ _
      · exact List.mem_cons_of_mem _ (ih ds it h)

theorem triggerLog_nil (dt dist : ℚ) (names : List String) :
    List.zipWith (fun (tc : List AudioCmd) (n : String) => tc ++ [AudioCmd.PlaySound n false])
      (triggerLog dt dist names.length []) names =
    names.map (fun n => [AudioCmd.PlaySound n false]) := by
  induction names with
  | nil => rfl
  | cons n rest ih =>
    simp only [List.length_cons, triggerLog, updateTriggers, List.zipWith_cons_cons,
      List.map_cons, List.nil_append]
    rw [ih]

theorem SoundComponent.runUpdates_succ_of_update (dt dist : ℚ) (n : ℕ) (c : SoundComponent)
    (r : SoundComponent × List AudioCmd) (h : c.Update dt dist = some r) :
    SoundComponent.runUpdates dt dist (n + 1) c =
      (SoundComponent.runUpdates dt dist n r.1).map (fun rs => (rs.1, r.2 :: rs.2)) := by
  simp only [SoundComponent.runUpdates, h]
  cases SoundComponent.runUpdates dt dist n r.1 <;> rfl

theorem getElem?_append_cons_length {α : Type} (played : List α) (item : α) (rest : List α) :
    (played ++ item :: rest)[played.length]? = some item := by
  induction played with
  | nil => simp
  | cons x xs ih => simpa using ih

theorem SoundComponent.sequence_runs (dt dist : ℚ) (rest : List SoundSequenceItem) :
    ∀ (item : SoundSequenceItem) (played : List SoundSequenceItem) (c : SoundComponent),
    c.sequenceItems = played ++ item :: rest → c.currentSequenceIndex = played.length →
    c.sequenceTimer = 0 → c.playingSequence = true →
    (∀ it ∈ item :: rest, it.delay ≤ dt) →
    ∃ c1 : SoundComponent,
      SoundComponent.runUpdates dt dist (rest.length + 1) c =
        some (c1,
          List.zipWith (fun (tc : List AudioCmd) (it : SoundSequenceItem) =>
              tc ++ [AudioCmd.PlaySound it.soundName false])
            (triggerLog dt dist (rest.length + 1) c.soundTriggers) (item :: rest))
      ∧ c1.playingSequence = false := by
  induction rest with
  | nil =>
    intro item played c hitems hidx htimer hp hdelay
    have hitem : c.sequenceItems[c.currentSequenceIndex]? = some item := by
      rw [hitems, hidx]
      exact getElem?_append_cons_length played item _
    have hstep := SoundComponent.Update_sequence_play c dt dist item hp hitem
      (by rw [htimer, zero_add]; exact hdelay item (List.mem_cons_self _ _))
    refine ⟨{ c with
        music := c.music.map (fun p => (p.1, p.2.Update dt)),
        soundTriggers := (updateTriggers dt dist c.soundTriggers).1,
        currentSequenceIndex := c.currentSequenceIndex + 1,
        sequenceTimer := 0,
        playingSequence := decide (c.currentSequenceIndex + 1 < c.sequenceItems.length) },
      ?_, ?_⟩
    · rw [show ([] : List SoundSequenceItem).length + 1 = 0 + 1 from rfl,
        SoundComponent.runUpdates_succ_of_update dt dist 0 c _ hstep]
      simp [SoundComponent.runUpdates, triggerLog]
    · simp [hitems, hidx]
  | cons item2 rest2 ih =>
    intro item played c hitems hidx htimer hp hdelay
    have hitem : c.sequenceItems[c.currentSequenceIndex]? = some item := by
      rw [hitems, hidx]
      exact getElem?_append_cons_length played item _
    have hstep := SoundComponent.Update_sequence_play c dt dist item hp hitem
      (by rw [htimer, zero_add]; exact hdelay item (List.mem_cons_self _ _))
    obtain ⟨c1, hrun, hfin⟩ := ih item2 (played ++ [item])
      { c with
        music := c.music.map (fun p => (p.1, p.2.Update dt)),
        soundTriggers := (updateTriggers dt dist c.soundTriggers).1,
        currentSequenceIndex := c.currentSequenceIndex + 1,
        sequenceTimer := 0,
        playingSequence := decide (c.currentSequenceIndex + 1 < c.sequenceItems.length) }
      (by simp [hitems]) (by simp [hidx]) rfl (by simp [hitems, hidx])
      (fun it hit => hdelay it (List.mem_cons_of_mem _ hit))
    refine ⟨c1, ?_, hfin⟩
    rw [show (item2 :: rest2).length + 1 = (rest2.length + 1) + 1 from rfl,
      SoundComponent.runUpdates_succ_of_update dt dist (rest2.length + 1) c _ hstep, hrun]
    simp [triggerLog]

theorem SoundComponent.sequence_from_start (c : SoundComponent) (soundNames : List String)
    (delays : List ℚ) (dt dist : ℚ) (hne : soundNames ≠ [])
    (hlen : soundNames.length = delays.length) (hdt : ∀ d ∈ delays, d ≤ dt) :
    ∃ c1 : SoundComponent,
      SoundComponent.runUpdates dt dist soundNames.length
          (c.PlaySoundSequence soundNames delays).1 =
        some (c1,
          List.zipWith (fun (tc : List AudioCmd) (n : String) =>
              tc ++ [AudioCmd.PlaySound n false])
            (triggerLog dt dist soundNames.length c.soundTriggers) soundNames)
      ∧ c1.playingSequence = false := by
  rw [SoundComponent.PlaySoundSequence_accepted c soundNames delays hne hlen]
  have hnames := zipWith_items_names soundNames delays hlen
  cases hz : List.zipWith (fun n d => ({ soundName := n, delay := d } : SoundSequenceItem))
      soundNames delays with
  | nil =>
    rw [hz] at hnames
    exact absurd hnames.symm hne
  | cons item rest =>
    rw [hz] at hnames
    have hcount : soundNames.length = rest.length + 1 := by
      rw [← hnames]
      simp
    obtain ⟨c1, hrun, hfin⟩ := SoundComponent.sequence_runs dt dist rest item []
      { c with sequenceItems := item :: rest, currentSequenceIndex := 0, sequenceTimer := 0,
               playingSequence := true }
      rfl rfl rfl rfl
      (fun it hit => hdt it.delay (zipWith_items_delay soundNames delays it (by rw [hz]; exact hit)))
    refine ⟨c1, ?_, hfin⟩
    rw [hcount, hrun]
    congr 2
    rw [← hnames, List.zipWith_map_right]

/-- C14: a sequence of `n ≥ 1` items started with `PlaySoundSequence` and then
updated `n` times with a step `dt` that is at least every item's delay: all
`n` updates return, update `i + 1` issues what the trigger loop issues on it
followed by exactly one sequence request, `PlaySound(name i, false)`, in list
order, and after the `n`-th update `playingSequence` is false. On a component
without triggers the updates issue exactly `PlaySound(name 0, false)`, ...,
`PlaySound(name (n-1), false)`, one each; for `[(a,0),(b,1),(c,1)]` and
`dt = 1` these are a, b, c. -/
theorem C14_sequence_one_item_per_update (c : SoundComponent) (soundNames : List String)
    (delays : List ℚ) (dt dist : ℚ) (hne : soundNames ≠ [])
    (hlen : soundNames.length = delays.length) (hdt : ∀ d ∈ delays, d ≤ dt) :
    (∃ c1 : SoundComponent,
      SoundComponent.runUpdates dt dist soundNames.length
          (c.PlaySoundSequence soundNames delays).1 =
        some (c1,
          List.zipWith (fun (tc : List AudioCmd) (n : String) =>
              tc ++ [AudioCmd.PlaySound n false])
            (triggerLog dt dist soundNames.length c.soundTriggers) soundNames)
      ∧ c1.playingSequence = false)
    ∧ (c.soundTriggers = [] →
        ∃ c1 : SoundComponent,
          SoundComponent.runUpdates dt dist soundNames.length
              (c.PlaySoundSequence soundNames delays).1 =
            some (c1, soundNames.map (fun n => [AudioCmd.PlaySound n false]))
          ∧ c1.playingSequence = false)
    ∧ (SoundComponent.runUpdates 1 (-1) 3
          ((SoundComponent.new ["a", "b", "c"] []).PlaySoundSequence ["a", "b", "c"]
            [0, 1, 1]).1).map (fun r => (r.1.playingSequence, r.2)) =
        some (false, [[AudioCmd.PlaySound "a" false], [AudioCmd.PlaySound "b" false],
          [AudioCmd.PlaySound "c" false]]) := by
  have hmain := SoundComponent.sequence_from_start c soundNames delays dt dist hne hlen hdt
  refine ⟨hmain, ?_, ?_⟩
  · intro hnt
    obtain ⟨c1, hrun, hfin⟩ := hmain
    refine ⟨c1, ?_, hfin⟩
    rw [hrun, hnt, triggerLog_nil]
  · obtain ⟨c1, hrun, hfin⟩ := SoundComponent.sequence_from_start
      (SoundComponent.new ["a", "b", "c"] []) ["a", "b", "c"] [0, 1, 1] 1 (-1) (by decide)
      (by decide)
      (by intro d hd
          simp only [List.mem_cons, List.mem_singleton, List.not_mem_nil, or_false] at hd
          rcases hd with h | h | h <;> norm_num [h])
    have hlog := triggerLog_nil 1 (-1) ["a", "b", "c"]
    rw [show (SoundComponent.new ["a", "b", "c"] []).soundTriggers = [] from rfl, hlog] at hrun
    rw [show (3 : ℕ) = ["a", "b", "c"].length from rfl, hrun]
    simp [hfin]

/-- Witness of C14: names x, y with delays 1/2 and 2, step 2, on a fresh
component. -/
theorem C14_sequence_one_item_per_update_witness :
    ∃ c1 : SoundComponent,
      SoundComponent.runUpdates 2 (-1) ["x", "y"].length
          ((SoundComponent.new ["x", "y"] []).PlaySoundSequence ["x", "y"] [1 / 2, 2]).1 =
        some (c1, ["x", "y"].map (fun n => [AudioCmd.PlaySound n false]))
      ∧ c1.playingSequence = false :=
  (C14_sequence_one_item_per_update (SoundComponent.new ["x", "y"] []) ["x", "y"] [1 / 2, 2]
    2 (-1) (by decide) (by decide)
    (by intro d hd
        simp only [List.mem_cons, List.mem_singleton, List.not_mem_nil, or_false] at hd
        rcases hd with h | h <;> norm_num [h])).2.1 rfl

/-! ## Session registry -/

theorem sweepSounds_eq_filter (l : List Sound) :
    sweepSounds l = l.filter (fun s => s.IsPlaying.2) := by
  induction l with
  | nil => rfl
  | cons s rest ih =>
    by_cases h : s.IsPlaying.2 = true
    · have hs : s.IsPlaying.1 = s := by
        have hst : s.sound.started = true := by
          unfold Sound.IsPlaying at h
          by_cases h1 : s.loaded = false
          · simp [h1] at h
          · by_cases h2 : s.paused = true
            · simp [h1, h2] at h
            · simpa [h1, h2] using h
        unfold Sound.IsPlaying
        by_cases h1 : s.loaded = false
        · simp [h1]
        · by_cases h2 : s.paused = true
          · simp [h1, h2]
          · simp [h1, h2, hst]
      simp [sweepSounds, h, hs, ih]
    · simp [sweepSounds, h, ih]

/-- C17: evaluation of the sweep of `AudioEngine::Update` where the claim
fails. Three loaded sounds are registered: one that was started and then
paused, one that was never started, and one that is playing. None has
finished, yet the sweep erases the paused one and the one not yet started,
`IsPlaying()` being false on both, and keeps only the playing one. The
active-music list is untouched. -/
theorem C17_sweep_erases_paused_and_unstarted :
    (((Sound.new true).Play true).1.Pause).paused = true
    ∧ (((Sound.new true).Play true).1.Pause).IsPlaying.2 = false
    ∧ (Sound.new true).IsPlaying.2 = false
    ∧ ((((AudioEngine.init.RegisterSound ((Sound.new true).Play true).1.Pause).RegisterSound
          (Sound.new true)).RegisterSound ((Sound.new true).Play true).1).Update
          (2 / 125)).activeSounds = [((Sound.new true).Play true).1]
    ∧ ((((AudioEngine.init.RegisterSound ((Sound.new true).Play true).1.Pause).RegisterSound
          (Sound.new true)).RegisterSound ((Sound.new true).Play true).1).Update
          (2 / 125)).activeMusic = [] := by
  refine ⟨?_, ?_, ?_, ?_, ?_⟩ <;>
    simp [AudioEngine.Update, AudioEngine.RegisterSound, AudioEngine.init, sweepSounds,
      Sound.IsPlaying, Sound.Pause, Sound.Play, Sound.new, ma_sound_start, ma_sound_stop,
      MaSound.init]

theorem Sound.UpdateVolume_loaded (s : Sound) (e : AudioEngine) (hl : s.loaded = true) :
    s.UpdateVolume e =
      { s with sound := { s.sound with volume := s.effectiveVolume e } } := by
  by_cases hm : e.IsCategoryMuted s.category = true <;>
    simp [Sound.UpdateVolume, Sound.effectiveVolume, hl, hm, ma_sound_set_volume]

theorem Music.UpdateVolume_loaded_no_fade (m : Music) (e : AudioEngine) (hl : m.loaded = true)
    (hf : m.fadeState = FadeState.None) :
    m.UpdateVolume e =
      { m with sound := { m.sound with volume := m.effectiveVolume e } } := by
  by_cases hm : e.IsCategoryMuted m.category = true <;>
    simp [Music.UpdateVolume, Music.effectiveVolume, hl, hf, hm, ma_sound_set_volume]

theorem forall₂_map_self {α : Type} (R : α → α → Prop) (f : α → α) (l : List α)
    (h : ∀ x ∈ l, R x (f x)) : List.Forall₂ R l (l.map f) := by
  induction l with
  | nil => exact List.Forall₂.nil
  | cons x rest ih =>
    exact List.Forall₂.cons (h x (List.mem_cons_self _ _))
      (ih (fun y hy => h y (List.mem_cons_of_mem _ hy)))

/-- C18: the broadcasts `SetCategoryVolume(c, v)` and `MuteCategory(c, mute)`.
Entry by entry of the active-sound and active-music lists (same length, same
order): a loaded voice of category `c` (for music: with no active fade) is
the voice it was with its backend volume set to its effective volume under
the new tables; a voice of another category is exactly the voice it was. The
volume of every other category and the mute flag of every category are
unchanged by `SetCategoryVolume`, and the mute flag of every other category
and the volume of every category by `MuteCategory`; the stored values are
`clamp01 v` and `mute`. -/
theorem C18_category_broadcast (e : AudioEngine) (c : AudioCategory) (v : ℚ) (mute : Bool) :
    List.Forall₂
        (fun s s1 : Sound =>
          (s.category = c → s.loaded = true →
            s1 = { s with sound := { s.sound with
                     volume := s.effectiveVolume (e.SetCategoryVolume c v) } } ∧
            s1.sound.volume = s1.effectiveVolume (e.SetCategoryVolume c v))
          ∧ (s.category ≠ c → s1 = s))
        e.activeSounds (e.SetCategoryVolume c v).activeSounds
    ∧ List.Forall₂
        (fun m m1 : Music =>
          (m.category = c → m.loaded = true → m.fadeState = FadeState.None →
            m1 = { m with sound := { m.sound with
                     volume := m.effectiveVolume (e.SetCategoryVolume c v) } } ∧
            m1.sound.volume = m1.effectiveVolume (e.SetCategoryVolume c v))
          ∧ (m.category ≠ c → m1 = m))
        e.activeMusic (e.SetCategoryVolume c v).activeMusic
    ∧ (e.SetCategoryVolume c v).GetCategoryVolume c = clamp01 v
    ∧ (∀ c1, c1 ≠ c → (e.SetCategoryVolume c v).GetCategoryVolume c1 = e.GetCategoryVolume c1)
    ∧ (∀ c1, (e.SetCategoryVolume c v).IsCategoryMuted c1 = e.IsCategoryMuted c1)
    ∧ List.Forall₂
        (fun s s1 : Sound =>
          (s.category = c → s.loaded = true →
            s1 = { s with sound := { s.sound with
                     volume := s.effectiveVolume (e.MuteCategory c mute) } } ∧
            s1.sound.volume = s1.effectiveVolume (e.MuteCategory c mute))
          ∧ (s.category ≠ c → s1 = s))
        e.activeSounds (e.MuteCategory c mute).activeSounds
    ∧ List.Forall₂
        (fun m m1 : Music =>
          (m.category = c → m.loaded = true → m.fadeState = FadeState.None →
            m1 = { m with sound := { m.sound with
                     volume := m.effectiveVolume (e.MuteCategory c mute) } } ∧
            m1.sound.volume = m1.effectiveVolume (e.MuteCategory c mute))
          ∧ (m.category ≠ c → m1 = m))
        e.activeMusic (e.MuteCategory c mute).activeMusic
    ∧ (e.MuteCategory c mute).IsCategoryMuted c = mute
    ∧ (∀ c1, c1 ≠ c → (e.MuteCategory c mute).IsCategoryMuted c1 = e.IsCategoryMuted c1)
    ∧ (∀ c1, (e.MuteCategory c mute).GetCategoryVolume c1 = e.GetCategoryVolume c1) := by
  have hsound : ∀ (e1 e2 : AudioEngine),
      (∀ cat, e2.GetCategoryVolume cat = e1.GetCategoryVolume cat) →
      (∀ cat, e2.IsCategoryMuted cat = e1.IsCategoryMuted cat) →
      List.Forall₂
        (fun s s1 : Sound =>
          (s.category = c → s.loaded = true →
            s1 = { s with sound := { s.sound with volume := s.effectiveVolume e2 } } ∧
            s1.sound.volume = s1.effectiveVolume e2)
          ∧ (s.category ≠ c → s1 = s))
        e.activeSounds
        (e.activeSounds.map (fun s => if s.category = c then s.UpdateVolume e1 else s)) := by
    intro e1 e2 hv hm
    apply forall₂_map_self
    intro s _
    have heff : s.effectiveVolume e2 = s.effectiveVolume e1 := by
      simp [Sound.effectiveVolume, hv, hm]
    refine ⟨fun hc hl => ?_, fun hc => by simp [hc]⟩
    rw [if_pos hc, Sound.UpdateVolume_loaded s e1 hl, heff]
    exact ⟨rfl, by simp [Sound.effectiveVolume, hv, hm]⟩
  have hmusic : ∀ (e1 e2 : AudioEngine),
      (∀ cat, e2.GetCategoryVolume cat = e1.GetCategoryVolume cat) →
      (∀ cat, e2.IsCategoryMuted cat = e1.IsCategoryMuted cat) →
      List.Forall₂
        (fun m m1 : Music =>
          (m.category = c → m.loaded = true → m.fadeState = FadeState.None →
            m1 = { m with sound := { m.sound with volume := m.effectiveVolume e2 } } ∧
            m1.sound.volume = m1.effectiveVolume e2)
          ∧ (m.category ≠ c → m1 = m))
        e.activeMusic
        (e.activeMusic.map (fun m => if m.category = c then m.UpdateVolume e1 else m)) := by
    intro e1 e2 hv hm
    apply forall₂_map_self
    intro m _
    have heff : m.effectiveVolume e2 = m.effectiveVolume e1 := by
      simp [Music.effectiveVolume, hv, hm]
    refine ⟨fun hc hl hf => ?_, fun hc => by simp [hc]⟩
    rw [if_pos hc, Music.UpdateVolume_loaded_no_fade m e1 hl hf, heff]
    exact ⟨rfl, by simp [Music.effectiveVolume, hv, hm]⟩
  refine ⟨?_, ?_, GetCategoryVolume_SetCategoryVolume e c v, ?_,
    fun c1 => IsCategoryMuted_SetCategoryVolume e c c1 v, ?_, ?_, ?_, ?_, ?_⟩
  · exact hsound _ _ (fun cat => by simp [AudioEngine.SetCategoryVolume,
      AudioEngine.GetCategoryVolume]) (fun cat => by simp [AudioEngine.SetCategoryVolume,
      AudioEngine.IsCategoryMuted])
  · exact hmusic _ _ (fun cat => by simp [AudioEngine.SetCategoryVolume,
      AudioEngine.GetCategoryVolume]) (fun cat => by simp [AudioEngine.SetCategoryVolume,
      AudioEngine.IsCategoryMuted])
  · intro c1 hc1
    simp [AudioEngine.SetCategoryVolume, AudioEngine.GetCategoryVolume, hc1]
  · exact hsound _ _ (fun cat => by simp [AudioEngine.MuteCategory,
      AudioEngine.GetCategoryVolume]) (fun cat => by simp [AudioEngine.MuteCategory,
      AudioEngine.IsCategoryMuted])
  · exact hmusic _ _ (fun cat => by simp [AudioEngine.MuteCategory,
      AudioEngine.GetCategoryVolume]) (fun cat => by simp [AudioEngine.MuteCategory,
      AudioEngine.IsCategoryMuted])
  · simp [AudioEngine.MuteCategory, AudioEngine.IsCategoryMuted]
  · intro c1 hc1
    simp [AudioEngine.MuteCategory, AudioEngine.IsCategoryMuted, hc1]
  · intro c1
    simp [AudioEngine.MuteCategory, AudioEngine.GetCategoryVolume]

/-! ## Cancellation -/

/-- C19: on a loaded track in any fade state, `Music::Stop` leaves the fade
state `None` with `playing = false` and `paused = false`, and every later
`Music::Update(dt)`, one or many, for any `dt`, returns the track exactly as
`Stop` left it, backend volume included. -/
theorem C19_stop_cancels_fade (m : Music) (dt : ℚ) (dts : List ℚ) (hl : m.loaded = true) :
    m.Stop.fadeState = FadeState.None
    ∧ m.Stop.playing = false
    ∧ m.Stop.paused = false
    ∧ m.Stop.Update dt = m.Stop
    ∧ (m.Stop.Update dt).sound.volume = m.sound.volume
    ∧ m.Stop.runUpdates dts = m.Stop := by
  have hf : m.Stop.fadeState = FadeState.None := by simp [Music.Stop, hl]
  refine ⟨hf, by simp [Music.Stop, hl], by simp [Music.Stop, hl],
    Music.Update_of_none _ dt hf, ?_, Music.runUpdates_of_none dts _ hf⟩
  rw [Music.Update_of_none _ dt hf]
  simp [Music.Stop, hl, ma_sound_seek_to_pcm_frame, ma_sound_stop]

/-- Witness of C19: a track stopped one second into a 4-second fade-out, then
updated by 1, 2 and 5 seconds. -/
theorem C19_stop_cancels_fade_witness :
    ((((Music.new true).Play true).1.FadeOut 4 true).Update 1).loaded = true ∧
    ((((Music.new true).Play true).1.FadeOut 4 true).Update 1).Stop.runUpdates [1, 2, 5] =
      ((((Music.new true).Play true).1.FadeOut 4 true).Update 1).Stop :=
  have hl : ((((Music.new true).Play true).1.FadeOut 4 true).Update 1).loaded = true := by
    have hne : FadeState.FadingOut ≠ FadeState.None := by decide
    norm_num [hne, Music.Update, Music.FadeOut, Music.Play, Music.new, Music.Stop]
  ⟨hl, (C19_stop_cancels_fade _ 1 [1, 2, 5] hl).2.2.2.2.2⟩

/-! ## Trigger scheduler: the trigger loop inside `Update` -/

theorem updateTrigger_calls (dt dist : ℚ) (k : String) (t : SoundTrigger) :
    (updateTrigger dt dist k t).2 =
      if fires k t (dt, dist) = true then [AudioCmd.PlaySound k false] else [] := by
  unfold fires
  cases hty : t.type
  · simp [updateTrigger, hty]
  · by_cases h : t.accumulator + dt ≥ t.parameter <;> simp [updateTrigger, hty, h]
  · by_cases h1 : dist ≥ 0 ∧ t.active = true
    · by_cases h2 : dist ≤ t.parameter <;> simp [updateTrigger, hty, h1, h2]
    · by_cases h3 : dist > t.parameter * (3 / 2) <;> simp [updateTrigger, hty, h1, h3]

theorem count_updateTrigger_self (dt dist : ℚ) (name : String) (t : SoundTrigger) :
    List.count (AudioCmd.PlaySound name false) (updateTrigger dt dist name t).2 =
      if fires name t (dt, dist) = true then 1 else 0 := by
  rw [updateTrigger_calls]
  split_ifs <;> simp

theorem count_updateTrigger_other (dt dist : ℚ) (name k : String) (t : SoundTrigger)
    (hk : k ≠ name) :
    List.count (AudioCmd.PlaySound name false) (updateTrigger dt dist k t).2 = 0 := by
  rw [updateTrigger_calls, List.count_eq_zero]
  split_ifs
  · intro h
    have h1 := List.mem_singleton.mp h
    injection h1 with h2 _
    exact hk h2.symm
  · simp

theorem updateTriggers_cons (dt dist : ℚ) (k : String) (t : SoundTrigger)
    (rest : List (String × SoundTrigger)) :
    updateTriggers dt dist ((k, t) :: rest) =
      ((k, (updateTrigger dt dist k t).1) :: (updateTriggers dt dist rest).1,
        (updateTrigger dt dist k t).2 ++ (updateTriggers dt dist rest).2) := rfl

theorem updateTriggers_keys (dt dist : ℚ) (l : List (String × SoundTrigger)) :
    (updateTriggers dt dist l).1.map Prod.fst = l.map Prod.fst := by
  rw [updateTriggers_fst, List.map_map]
  rfl

theorem mapFind_updateTriggers (dt dist : ℚ) (name : String)
    (l : List (String × SoundTrigger)) :
    mapFind name (updateTriggers dt dist l).1 =
      (mapFind name l).map (fun t => (updateTrigger dt dist name t).1) := by
  induction l with
  | nil => rfl
  | cons en rest ih =>
    obtain ⟨k, t⟩ := en
    rw [updateTriggers_cons]
    by_cases hk : k = name
    · simp [mapFind, hk]
    · simp [mapFind, hk, ih]

theorem count_updateTriggers_absent (dt dist : ℚ) (name : String)
    (l : List (String × SoundTrigger)) (h : name ∉ l.map Prod.fst) :
    List.count (AudioCmd.PlaySound name false) (updateTriggers dt dist l).2 = 0 := by
  induction l with
  | nil => rfl
  | cons en rest ih =>
    obtain ⟨k, t⟩ := en
    simp only [List.map_cons, List.mem_cons, not_or] at h
    rw [updateTriggers_cons, List.count_append,
      count_updateTrigger_other dt dist name k t (fun hk => h.1 hk.symm), ih h.2]

theorem count_updateTriggers_present (dt dist : ℚ) (name : String) (t : SoundTrigger)
    (l : List (String × SoundTrigger)) (hn : (l.map Prod.fst).Nodup)
    (hfind : mapFind name l = some t) :
    List.count (AudioCmd.PlaySound name false) (updateTriggers dt dist l).2 =
      if fires name t (dt, dist) = true then 1 else 0 := by
  induction l with
  | nil => simp [mapFind] at hfind
  | cons en rest ih =>
    obtain ⟨k, t0⟩ := en
    simp only [List.map_cons, List.nodup_cons] at hn
    rw [updateTriggers_cons, List.count_append]
    by_cases hk : k = name
    · simp only [mapFind, hk, if_true, Option.some.injEq] at hfind
      rw [hk, hfind, count_updateTrigger_self,
        count_updateTriggers_absent dt dist name rest (hk ▸ hn.1), add_zero]
    · simp only [mapFind, hk, if_false] at hfind
      rw [count_updateTrigger_other dt dist name k t0 hk, ih hn.2 hfind, zero_add]

theorem SoundComponent.Update_shape (c : SoundComponent) (dt dist : ℚ)
    (hb : c.playingSequence = true → c.currentSequenceIndex < c.sequenceItems.length) :
    ∃ (c1 : SoundComponent) (seq : List AudioCmd),
      c.Update dt dist = some (c1, (updateTriggers dt dist c.soundTriggers).2 ++ seq)
      ∧ c1.soundTriggers = (updateTriggers dt dist c.soundTriggers).1
      ∧ c1.sequenceItems = c.sequenceItems
      ∧ (c1.playingSequence = true → c.playingSequence = true)
      ∧ (c1.playingSequence = true → c1.currentSequenceIndex < c1.sequenceItems.length)
      ∧ (seq = [] ∨ (c.playingSequence = true ∧
          ∃ it ∈ c.sequenceItems, seq = [AudioCmd.PlaySound it.soundName false])) := by
  by_cases hp : c.playingSequence = true ∧ c.sequenceItems ≠ []
  · have hlt := hb hp.1
    have hitem : c.sequenceItems[c.currentSequenceIndex]? =
        some (c.sequenceItems.get ⟨c.currentSequenceIndex, hlt⟩) := by
      simp [List.getElem?_eq_getElem hlt]
    by_cases hd : (c.sequenceItems.get ⟨c.currentSequenceIndex, hlt⟩).delay ≤ c.sequenceTimer + dt
    · refine ⟨_, _, SoundComponent.Update_sequence_play c dt dist _ hp.1 hitem hd, rfl, rfl,
        fun _ => hp.1, ?_, Or.inr ⟨hp.1, _, List.get_mem _ _ _, rfl⟩⟩
      intro h
      simpa using h
    · refine ⟨{ c with
          music := c.music.map (fun p => (p.1, p.2.Update dt)),
          soundTriggers := (updateTriggers dt dist c.soundTriggers).1,
          sequenceTimer := c.sequenceTimer + dt },
        [], ?_, rfl, rfl, fun _ => hp.1, fun _ => hlt, Or.inl rfl⟩
      rw [List.append_nil]
      exact SoundComponent.Update_sequence_wait c dt dist _ hp.1 hitem (not_le.mp hd)
  · refine ⟨{ c with
        music := c.music.map (fun p => (p.1, p.2.Update dt)),
        soundTriggers := (updateTriggers dt dist c.soundTriggers).1 },
      [], ?_, rfl, rfl, fun h => h, hb, Or.inl rfl⟩
    rw [List.append_nil]
    exact SoundComponent.Update_sequence_idle c dt dist hp

theorem SoundComponent.Update_trigger_view (c : SoundComponent) (name : String)
    (t : SoundTrigger) (dt dist : ℚ)
    (hb : c.playingSequence = true → c.currentSequenceIndex < c.sequenceItems.length)
    (hn : (c.soundTriggers.map Prod.fst).Nodup)
    (hfind : mapFind name c.soundTriggers = some t) :
    ∃ r : SoundComponent × List AudioCmd,
      c.Update dt dist = some r
      ∧ mapFind name r.1.soundTriggers = some (updateTrigger dt dist name t).1
      ∧ (if fires name t (dt, dist) = true then 1 else 0) ≤
          List.count (AudioCmd.PlaySound name false) r.2
      ∧ List.count (AudioCmd.PlaySound name false) r.2 ≤
          (if fires name t (dt, dist) = true then 1 else 0) + 1
      ∧ ((c.playingSequence = true → ∀ it ∈ c.sequenceItems, it.soundName ≠ name) →
          List.count (AudioCmd.PlaySound name false) r.2 =
            if fires name t (dt, dist) = true then 1 else 0)
      ∧ (r.1.playingSequence = true → r.1.currentSequenceIndex < r.1.sequenceItems.length)
      ∧ (r.1.soundTriggers.map Prod.fst).Nodup
      ∧ ((c.playingSequence = true → ∀ it ∈ c.sequenceItems, it.soundName ≠ name) →
          (r.1.playingSequence = true → ∀ it ∈ r.1.sequenceItems, it.soundName ≠ name)) := by
  obtain ⟨c1, seq, hup, htr, hitems, hplay, hb1, hseq⟩ := SoundComponent.Update_shape c dt dist hb
  have hcount := count_updateTriggers_present dt dist name t c.soundTriggers hn hfind
  refine ⟨_, hup, ?_, ?_, ?_, ?_, hb1, ?_, ?_⟩
  · simp only [htr, mapFind_updateTriggers, hfind, Option.map_some']
  · simp only [List.count_append, hcount]
    exact Nat.le_add_right _ _
  · simp only [List.count_append, hcount]
    apply Nat.add_le_add_left
    rcases hseq with h | ⟨_, it, _, h⟩
    · simp [h]
    · rw [h]
      exact List.count_le_length _ _
  · intro ha
    simp only [List.count_append, hcount]
    rcases hseq with h | ⟨hp, it, hit, h⟩
    · simp [h]
    · rw [h, List.count_eq_zero.mpr, add_zero]
      intro hmem
      have h1 := List.mem_singleton.mp hmem
      injection h1 with h2 _
      exact ha hp it hit h2.symm
  · simp only [htr, updateTriggers_keys]
    exact hn
  · intro ha hp1 it hit
    simp only [hitems] at hit
    exact ha (hplay hp1) it hit

theorem SoundComponent.runInputs_cons_of_update (x : ℚ × ℚ) (xs : List (ℚ × ℚ))
    (c : SoundComponent) (r : SoundComponent × List AudioCmd)
    (h : c.Update x.1 x.2 = some r) :
    SoundComponent.runInputs (x :: xs) c =
      (SoundComponent.runInputs xs r.1).map (fun rs => (rs.1, r.2 :: rs.2)) := by
  simp only [SoundComponent.runInputs, h]
  cases SoundComponent.runInputs xs r.1 <;> rfl

theorem SoundComponent.runInputs_trigger_view (name : String) (inputs : List (ℚ × ℚ)) :
    ∀ (c : SoundComponent) (t : SoundTrigger),
    (c.playingSequence = true → c.currentSequenceIndex < c.sequenceItems.length) →
    (c.soundTriggers.map Prod.fst).Nodup →
    mapFind name c.soundTriggers = some t →
    (c.playingSequence = true → ∀ it ∈ c.sequenceItems, it.soundName ≠ name) →
    ∃ rs : SoundComponent × List (List AudioCmd),
      SoundComponent.runInputs inputs c = some rs
      ∧ rs.2.map (List.count (AudioCmd.PlaySound name false)) =
          (firingTrace name t inputs).map (fun b => if b = true then 1 else 0)
      ∧ mapFind name rs.1.soundTriggers = some (runTrigger name t inputs)
      ∧ (rs.1.playingSequence = true → rs.1.currentSequenceIndex < rs.1.sequenceItems.length)
      ∧ (rs.1.soundTriggers.map Prod.fst).Nodup
      ∧ (rs.1.playingSequence = true → ∀ it ∈ rs.1.sequenceItems, it.soundName ≠ name) := by
  induction inputs with
  | nil =>
    intro c t hb hn hfind ha
    exact ⟨(c, []), rfl, rfl, hfind, hb, hn, ha⟩
  | cons x xs ih =>
    intro c t hb hn hfind ha
    obtain ⟨r, hup, hfind1, _, _, hcount, hb1, hn1, ha1⟩ :=
      SoundComponent.Update_trigger_view c name t x.1 x.2 hb hn hfind
    obtain ⟨rs, hrun, hlog, hfind2, hb2, hn2, ha2⟩ :=
      ih r.1 (updateTrigger x.1 x.2 name t).1 hb1 hn1 hfind1 (ha1 ha)
    refine ⟨(rs.1, r.2 :: rs.2), ?_, ?_, hfind2, hb2, hn2, ha2⟩
    · rw [SoundComponent.runInputs_cons_of_update x xs c r hup, hrun]
      rfl
    · simp only [List.map_cons, firingTrace, hlog, hcount ha]

theorem mem_calls_iff_fires (name : String) (t : SoundTrigger) (x : ℚ × ℚ)
    (calls : List AudioCmd)
    (h : List.count (AudioCmd.PlaySound name false) calls =
      if fires name t x = true then 1 else 0) :
    AudioCmd.PlaySound name false ∈ calls ↔ fires name t x = true := by
  rw [← List.count_pos_iff, h]
  split_ifs with hf
  · simp [hf]
  · simp [hf]

/-- C9: a distance trigger inside `SoundComponent::Update`. The component has
its cursor in bounds and distinct trigger keys, and `t` is the distance
trigger stored under `name`. One `Update` returns, leaves under `name` the
trigger as the distance branch rewrites it, and issues `PlaySound(name, false)`
once for the trigger when it is armed and `0 ≤ distance ≤ parameter`, not at
all for it otherwise (the running sequence may add one request of its own).
When the running sequence does not itself play `name`: the update issues
`PlaySound(name, false)` at most once, exactly when the trigger is armed and
`0 ≤ distance ≤ parameter`, and the trigger is then disarmed; and in any run
of updates, between two updates that issue it there is an update that saw
`distance > 1.5 * parameter`. With parameter 5 on a fresh component the
trigger fires on entering the range, stays silent inside it and at distance
7.5 exactly, and fires again only after the distance went to 8 and came back
to 5. -/
theorem C9_distance_trigger_in_update (c : SoundComponent) (name : String) (t : SoundTrigger)
    (dt dist : ℚ) (pre mid : List (ℚ × ℚ)) (x y : ℚ × ℚ)
    (hb : c.playingSequence = true → c.currentSequenceIndex < c.sequenceItems.length)
    (hn : (c.soundTriggers.map Prod.fst).Nodup)
    (hfind : mapFind name c.soundTriggers = some t)
    (ht : t.type = SoundTriggerType.ON_DISTANCE) :
    (∃ r : SoundComponent × List AudioCmd,
      c.Update dt dist = some r
      ∧ mapFind name r.1.soundTriggers =
          some (if dist ≥ 0 ∧ t.active = true then
                  (if dist ≤ t.parameter then { t with active := false } else t)
                else if dist > t.parameter * (3 / 2) then { t with active := true }
                else t)
      ∧ (if t.active = true ∧ 0 ≤ dist ∧ dist ≤ t.parameter then 1 else 0) ≤
          List.count (AudioCmd.PlaySound name false) r.2
      ∧ List.count (AudioCmd.PlaySound name false) r.2 ≤
          (if t.active = true ∧ 0 ≤ dist ∧ dist ≤ t.parameter then 1 else 0) + 1)
    ∧ ((c.playingSequence = true → ∀ it ∈ c.sequenceItems, it.soundName ≠ name) →
        (∃ r : SoundComponent × List AudioCmd,
          c.Update dt dist = some r
          ∧ List.count (AudioCmd.PlaySound name false) r.2 ≤ 1
          ∧ (AudioCmd.PlaySound name false ∈ r.2 ↔
              (t.active = true ∧ 0 ≤ dist ∧ dist ≤ t.parameter))
          ∧ (AudioCmd.PlaySound name false ∈ r.2 →
              mapFind name r.1.soundTriggers = some { t with active := false }))
        ∧ (∃ (r1 : SoundComponent × List (List AudioCmd)) (rx : SoundComponent × List AudioCmd)
            (r2 : SoundComponent × List (List AudioCmd)) (ry : SoundComponent × List AudioCmd),
            SoundComponent.runInputs pre c = some r1
            ∧ r1.1.Update x.1 x.2 = some rx
            ∧ SoundComponent.runInputs mid rx.1 = some r2
            ∧ r2.1.Update y.1 y.2 = some ry
            ∧ (AudioCmd.PlaySound name false ∈ rx.2 → AudioCmd.PlaySound name false ∈ ry.2 →
                ∃ z ∈ mid, t.parameter * (3 / 2) < z.2)))
    ∧ (SoundComponent.runInputs
          [(0, 10), (0, 5), (0, 3), (0, 6), (0, 15 / 2), (0, 4), (0, 8), (0, 6), (0, 5), (0, 4)]
          ((SoundComponent.new ["s"] []).AddSoundTrigger "s" SoundTriggerType.ON_DISTANCE 5
            "")).map
        (fun rs => rs.2.map (List.count (AudioCmd.PlaySound "s" false))) =
      some [0, 1, 0, 0, 0, 0, 0, 0, 1, 0] := by
  have hfire : ∀ (t0 : SoundTrigger) (x0 : ℚ × ℚ), t0.type = SoundTriggerType.ON_DISTANCE →
      (fires name t0 x0 = true ↔ (t0.active = true ∧ 0 ≤ x0.2 ∧ x0.2 ≤ t0.parameter)) :=
    fun t0 x0 h0 => fires_distance_iff name t0 x0 h0
  have hite : (if fires name t (dt, dist) = true then 1 else 0) =
      (if t.active = true ∧ 0 ≤ dist ∧ dist ≤ t.parameter then 1 else 0) := by
    by_cases hf : fires name t (dt, dist) = true
    · rw [if_pos hf, if_pos ((hfire t (dt, dist) ht).mp hf)]
    · rw [if_neg hf, if_neg (fun h => hf ((hfire t (dt, dist) ht).mpr h))]
  obtain ⟨r, hup, hfind1, hlo, hhi, hcount, hb1, hn1, ha1⟩ :=
    SoundComponent.Update_trigger_view c name t dt dist hb hn hfind
  refine ⟨⟨r, hup, ?_, ?_, ?_⟩, ?_, ?_⟩
  · rw [hfind1, updateTrigger_distance dt dist name t ht]
    split_ifs <;> rfl
  · rw [← hite]; exact hlo
  · rw [← hite]; exact hhi
  · intro ha
    refine ⟨⟨r, hup, ?_, ?_, ?_⟩, ?_⟩
    · rw [hcount ha]
      split_ifs <;> simp
    · rw [mem_calls_iff_fires name t (dt, dist) r.2 (hcount ha)]
      exact hfire t (dt, dist) ht
    · intro hmem
      have hf := (mem_calls_iff_fires name t (dt, dist) r.2 (hcount ha)).mp hmem
      obtain ⟨hact, h0, hp⟩ := (hfire t (dt, dist) ht).mp hf
      rw [hfind1, updateTrigger_distance dt dist name t ht]
      simp [hact, h0, hp]
    · obtain ⟨r1, hrun1, _, hfind2, hb2, hn2, ha2⟩ :=
        SoundComponent.runInputs_trigger_view name pre c t hb hn hfind ha
      obtain ⟨rx, hupx, hfindx, _, _, hcountx, hbx, hnx, hax⟩ :=
        SoundComponent.Update_trigger_view r1.1 name (runTrigger name t pre) x.1 x.2 hb2 hn2 hfind2
      obtain ⟨r2, hrun2, _, hfind3, hb3, hn3, ha3⟩ :=
        SoundComponent.runInputs_trigger_view name mid rx.1
          (updateTrigger x.1 x.2 name (runTrigger name t pre)).1 hbx hnx hfindx (hax ha2)
      obtain ⟨ry, hupy, _, _, _, hcounty, _, _, _⟩ :=
        SoundComponent.Update_trigger_view r2.1 name
          (runTrigger name (updateTrigger x.1 x.2 name (runTrigger name t pre)).1 mid)
          y.1 y.2 hb3 hn3 hfind3
      refine ⟨r1, rx, r2, ry, hrun1, hupx, hrun2, hupy, ?_⟩
      intro hmx hmy
      have hfx := (mem_calls_iff_fires name _ (x.1, x.2) rx.2 (hcountx ha2)).mp hmx
      have hfy := (mem_calls_iff_fires name _ (y.1, y.2) ry.2 (hcounty ha3)).mp hmy
      have hrunT : runTrigger name t (pre ++ x :: mid) =
          runTrigger name (updateTrigger x.1 x.2 name (runTrigger name t pre)).1 mid := by
        rw [runTrigger_append, runTrigger_cons]
      rw [← hrunT] at hfy
      exact (distance_branch_facts name t pre mid x y ht).2.2.2.1 hfx hfy
  · obtain ⟨rs, hrun, hlog, _⟩ := SoundComponent.runInputs_trigger_view "s"
      [(0, 10), (0, 5), (0, 3), (0, 6), (0, 15 / 2), (0, 4), (0, 8), (0, 6), (0, 5), (0, 4)]
      ((SoundComponent.new ["s"] []).AddSoundTrigger "s" SoundTriggerType.ON_DISTANCE 5 "")
      (SoundTrigger.fresh SoundTriggerType.ON_DISTANCE 5 "")
      (by intro h; simp [SoundComponent.AddSoundTrigger, SoundComponent.new] at h)
      (by simp [SoundComponent.AddSoundTrigger, SoundComponent.new, mapAssign])
      (by simp [SoundComponent.AddSoundTrigger, SoundComponent.new, mapAssign, mapFind])
      (by intro h; simp [SoundComponent.AddSoundTrigger, SoundComponent.new] at h)
    rw [hrun, Option.map_some', hlog,
      (distance_branch_facts "s" (SoundTrigger.fresh SoundTriggerType.ON_DISTANCE 5 "") [] []
        (0, 0) (0, 0) rfl).2.2.2.2]
    rfl

/-- Witness of C9: a fresh component with sound "s" and a distance trigger of
parameter 5 under it, updated at distance 4. -/
theorem C9_distance_trigger_in_update_witness :
    (mapFind "s" ((SoundComponent.new ["s"] []).AddSoundTrigger "s"
        SoundTriggerType.ON_DISTANCE 5 "").soundTriggers =
      some (SoundTrigger.fresh SoundTriggerType.ON_DISTANCE 5 "")) ∧
    ∃ r : SoundComponent × List AudioCmd,
      ((SoundComponent.new ["s"] []).AddSoundTrigger "s" SoundTriggerType.ON_DISTANCE 5
        "").Update 0 4 = some r ∧
      List.count (AudioCmd.PlaySound "s" false) r.2 ≤ 1 :=
  have hfind : mapFind "s" ((SoundComponent.new ["s"] []).AddSoundTrigger "s"
      SoundTriggerType.ON_DISTANCE 5 "").soundTriggers =
      some (SoundTrigger.fresh SoundTriggerType.ON_DISTANCE 5 "") := by
    simp [SoundComponent.AddSoundTrigger, SoundComponent.new, mapAssign, mapFind]
  ⟨hfind,
    ((C9_distance_trigger_in_update
      ((SoundComponent.new ["s"] []).AddSoundTrigger "s" SoundTriggerType.ON_DISTANCE 5 "")
      "s" (SoundTrigger.fresh SoundTriggerType.ON_DISTANCE 5 "") 0 4 [] [] (0, 4) (0, 4)
      (by intro h; simp [SoundComponent.AddSoundTrigger, SoundComponent.new] at h)
      (by simp [SoundComponent.AddSoundTrigger, SoundComponent.new, mapAssign])
      hfind rfl).2.1
      (by intro h; simp [SoundComponent.AddSoundTrigger, SoundComponent.new] at h)).1.elim
      (fun r hr => ⟨r, hr.1, hr.2.1⟩)⟩

/-- C11: a timer trigger inside `SoundComponent::Update`. The component has
its cursor in bounds and distinct trigger keys, and `t` is the timer trigger
stored under `name`. One `Update` returns and leaves under `name` the trigger
with `dt` added to its accumulator, or with the accumulator exactly 0 when the
sum reached the parameter, whatever the size of `dt`; it issues
`PlaySound(name, false)` once for the trigger in that case and not at all for
it otherwise (the running sequence may add one request of its own). When the
running sequence does not itself play `name`, the update issues
`PlaySound(name, false)` at most once, and exactly when the accumulator after
the addition is at least the parameter. -/
theorem C11_timer_trigger_in_update (c : SoundComponent) (name : String) (t : SoundTrigger)
    (dt dist : ℚ)
    (hb : c.playingSequence = true → c.currentSequenceIndex < c.sequenceItems.length)
    (hn : (c.soundTriggers.map Prod.fst).Nodup)
    (hfind : mapFind name c.soundTriggers = some t)
    (ht : t.type = SoundTriggerType.ON_TIMER) :
    ∃ r : SoundComponent × List AudioCmd,
      c.Update dt dist = some r
      ∧ mapFind name r.1.soundTriggers =
          some (if t.accumulator + dt ≥ t.parameter then { t with accumulator := 0 }
                else { t with accumulator := t.accumulator + dt })
      ∧ (if t.parameter ≤ t.accumulator + dt then 1 else 0) ≤
          List.count (AudioCmd.PlaySound name false) r.2
      ∧ List.count (AudioCmd.PlaySound name false) r.2 ≤
          (if t.parameter ≤ t.accumulator + dt then 1 else 0) + 1
      ∧ ((c.playingSequence = true → ∀ it ∈ c.sequenceItems, it.soundName ≠ name) →
          List.count (AudioCmd.PlaySound name false) r.2 =
            (if t.parameter ≤ t.accumulator + dt then 1 else 0)
          ∧ List.count (AudioCmd.PlaySound name false) r.2 ≤ 1
          ∧ (AudioCmd.PlaySound name false ∈ r.2 ↔ t.parameter ≤ t.accumulator + dt)) := by
  have hfire : fires name t (dt, dist) = true ↔ t.parameter ≤ t.accumulator + dt :=
    (timer_branch_facts name t dt dist ht).2.1
  have hite : (if fires name t (dt, dist) = true then 1 else 0) =
      (if t.parameter ≤ t.accumulator + dt then 1 else 0) := by
    by_cases hf : fires name t (dt, dist) = true
    · rw [if_pos hf, if_pos (hfire.mp hf)]
    · rw [if_neg hf, if_neg (fun h => hf (hfire.mpr h))]
  obtain ⟨r, hup, hfind1, hlo, hhi, hcount, _, _, _⟩ :=
    SoundComponent.Update_trigger_view c name t dt dist hb hn hfind
  refine ⟨r, hup, ?_, ?_, ?_, ?_⟩
  · rw [hfind1, updateTrigger_timer dt dist name t ht]
    split_ifs <;> rfl
  · rw [← hite]; exact hlo
  · rw [← hite]; exact hhi
  · intro ha
    refine ⟨by rw [hcount ha, hite], ?_, ?_⟩
    · rw [hcount ha]
      split_ifs <;> simp
    · rw [mem_calls_iff_fires name t (dt, dist) r.2 (hcount ha)]
      exact hfire

/-- Witness of C11: a fresh component with sound "tick" and a timer trigger of
2 seconds under it, updated by 10 seconds. -/
theorem C11_timer_trigger_in_update_witness :
    (mapFind "tick" ((SoundComponent.new ["tick"] []).AddSoundTrigger "tick"
        SoundTriggerType.ON_TIMER 2 "").soundTriggers =
      some (SoundTrigger.fresh SoundTriggerType.ON_TIMER 2 "")) ∧
    ∃ r : SoundComponent × List AudioCmd,
      ((SoundComponent.new ["tick"] []).AddSoundTrigger "tick" SoundTriggerType.ON_TIMER 2
        "").Update 10 (-1) = some r ∧
      mapFind "tick" r.1.soundTriggers =
        some (if (SoundTrigger.fresh SoundTriggerType.ON_TIMER 2 "").accumulator + 10 ≥
                (SoundTrigger.fresh SoundTriggerType.ON_TIMER 2 "").parameter then
              { SoundTrigger.fresh SoundTriggerType.ON_TIMER 2 "" with accumulator := 0 }
            else
              { SoundTrigger.fresh SoundTriggerType.ON_TIMER 2 "" with
                accumulator := (SoundTrigger.fresh SoundTriggerType.ON_TIMER 2 "").accumulator + 10 }) :=
  have hfind : mapFind "tick" ((SoundComponent.new ["tick"] []).AddSoundTrigger "tick"
      SoundTriggerType.ON_TIMER 2 "").soundTriggers =
      some (SoundTrigger.fresh SoundTriggerType.ON_TIMER 2 "") := by
    simp [SoundComponent.AddSoundTrigger, SoundComponent.new, mapAssign, mapFind]
  ⟨hfind,
    (C11_timer_trigger_in_update
      ((SoundComponent.new ["tick"] []).AddSoundTrigger "tick" SoundTriggerType.ON_TIMER 2 "")
      "tick" (SoundTrigger.fresh SoundTriggerType.ON_TIMER 2 "") 10 (-1)
      (by intro h; simp [SoundComponent.AddSoundTrigger, SoundComponent.new] at h)
      (by simp [SoundComponent.AddSoundTrigger, SoundComponent.new, mapAssign])
      hfind rfl).elim
      (fun r hr => ⟨r, hr.1, hr.2.1⟩)⟩

/-! ## The fade duration invariant -/

/-- C20: evaluation of `Music::FadeIn` and `Music::FadeOut` where the claim
fails. The guard `durationInSeconds <= 0.0f` is false for a NaN duration, so
`FadeIn(NaN)` on a freshly loaded track, and `FadeOut(NaN, true)` on a playing
one, start a fade: the fade state is not `None` and `fadeDuration` is NaN, for
which `fadeDuration > 0` is false. A duration of 0 or -1 is caught by the
guard and starts no fade. -/
theorem C20_nan_duration_starts_fade :
    ((MusicNaN.new true).FadeIn FloatNaN.nan true).fadeState = FadeState.FadingIn
    ∧ ((MusicNaN.new true).FadeIn FloatNaN.nan true).fadeDuration = FloatNaN.nan
    ∧ FloatNaN.gt ((MusicNaN.new true).FadeIn FloatNaN.nan true).fadeDuration (FloatNaN.val 0)
        = false
    ∧ (((MusicNaN.new true).Play true).1.FadeOut FloatNaN.nan true).fadeState
        = FadeState.FadingOut
    ∧ (((MusicNaN.new true).Play true).1.FadeOut FloatNaN.nan true).fadeDuration = FloatNaN.nan
    ∧ FloatNaN.gt (((MusicNaN.new true).Play true).1.FadeOut FloatNaN.nan true).fadeDuration
        (FloatNaN.val 0) = false
    ∧ ((MusicNaN.new true).FadeIn (FloatNaN.val 0) true).fadeState = FadeState.None
    ∧ ((MusicNaN.new true).FadeIn (FloatNaN.val (-1)) true).fadeState = FadeState.None := by
  refine ⟨?_, ?_, ?_, ?_, ?_, ?_, ?_, ?_⟩ <;>
    simp [MusicNaN.FadeIn, MusicNaN.FadeOut, MusicNaN.Play, MusicNaN.new, FloatNaN.le,
      FloatNaN.gt]

end MiniAudio
